import Mathlib

/-!
# Taxi-Simulation web client (`src/web/app.js`)

A shallow embedding of the browser client: the coordinate mapper
`mapToLatLon`, the poller `fetchState`, the marker reconciler
`updateMapMarkers`, the phone-panel renderers and `resetSim`.

* JavaScript strings are lists of characters (`JsString`).
* Numbers that carry coordinates are rationals: the arithmetic of
  `mapToLatLon` is exact.
* Entity ids are the integers of the JSON snapshot; `'t-' + t.id` renders
  them in decimal (`numberToString`).
* The module-level variables `map`, `markers` and `simulationState`, the two
  phone containers, the counters, the start button and the console are the
  fields of `App`; every function is a state transformer on `App`.
* A Leaflet marker object is a `Marker` record; its field `ref` is the
  identity of the object, and the Leaflet map holds the `ref`s of the layers
  that are on it.
* `App.mapOps`, `App.domOps` and `App.calls` are ghost histories: the Leaflet
  calls that add or remove a layer, the DOM calls that append or remove a
  phone panel, and the entries into `updateUI` / `updateMapMarkers`.
-/

namespace TaxiSim

/-! ## JavaScript strings -/

/-- A JavaScript string, as its list of characters. -/
abbrev JsString := List Char

/-- Decimal rendering of an integer-valued number, as in `'t-' + t.id`. -/
def numberToString : Int → JsString
  | Int.ofNat m => Nat.toDigits 10 m
  | Int.negSucc m => '-' :: Nat.toDigits 10 (m + 1)

/-- `String.prototype.startsWith`. -/
def startsWith (s p : JsString) : Bool := p.isPrefixOf s

/-- `String.prototype.replace` with a string pattern: only the first
occurrence of `pat` is replaced. -/
def replace (s pat rep : JsString) : JsString :=
  if pat.isPrefixOf s then rep ++ s.drop pat.length
  else
    match s with
    | [] => []
    | c :: r => c :: replace r pat rep

/-- Value of a decimal digit character, if it is one. -/
def decDigit (c : Char) : Option Nat :=
  if '0' ≤ c ∧ c ≤ '9' then some (c.toNat - '0'.toNat) else none

/-- Value of a hexadecimal digit character, if it is one. -/
def hexDigit (c : Char) : Option Nat :=
  if '0' ≤ c ∧ c ≤ '9' then some (c.toNat - '0'.toNat)
  else if 'a' ≤ c ∧ c ≤ 'f' then some (c.toNat - 'a'.toNat + 10)
  else if 'A' ≤ c ∧ c ≤ 'F' then some (c.toNat - 'A'.toNat + 10)
  else none

/-- Reads the longest run of digits at the front of `s` in the given radix;
`acc` is the value read so far and `seen` tells whether a digit was read. -/
def readDigits (digit : Char → Option Nat) (radix : Nat) :
    JsString → Nat → Bool → Option Nat
  | [], acc, seen => if seen then some acc else none
  | c :: r, acc, seen =>
    match digit c with
    | some d => readDigits digit radix r (radix * acc + d) true
    | none => if seen then some acc else none

/-- `parseInt(s)` without a radix argument: leading white space is skipped, a
sign is read, a `0x` / `0X` opens a hexadecimal numeral, and the longest run of
digits is the value. `none` is `NaN`. -/
def parseInt (s : JsString) : Option Int :=
  let s1 := s.dropWhile (fun c => c = ' ' ∨ c = '\t' ∨ c = '\n' ∨ c = '\r')
  let signed : Bool × JsString :=
    match s1 with
    | '-' :: r => (true, r)
    | '+' :: r => (false, r)
    | r => (false, r)
  let magnitude : Option Nat :=
    match signed.2 with
    | '0' :: 'x' :: r => readDigits hexDigit 16 r 0 false
    | '0' :: 'X' :: r => readDigits hexDigit 16 r 0 false
    | r => readDigits decDigit 10 r 0 false
  magnitude.map (fun m => if signed.1 then -(m : Int) else (m : Int))

/-- A value that a `Set` of the program can hold or be asked for: a number
(an id of the snapshot) or a string (a `dataset.id`). `Set.prototype.has`
compares with SameValueZero, under which a number never equals a string. -/
inductive JsValue where
  | number (n : Int)
  | string (s : JsString)
  deriving DecidableEq

/-- `Set.prototype.add` on a set kept as the list of its members in insertion
order. -/
def setAdd {α : Type} [DecidableEq α] (s : List α) (v : α) : List α :=
  if v ∈ s then s else s ++ [v]

/-- `Set.prototype.has`. -/
def setHas {α : Type} [DecidableEq α] (s : List α) (v : α) : Bool :=
  decide (v ∈ s)

/-! ## Snapshot -/

/-- A passenger of the snapshot. -/
structure Passenger where
  id : Int
  x : ℚ
  y : ℚ
  destination : JsString
  gender : JsString
  status : JsString
  name : JsString
  avatarUrl : JsString
  deriving DecidableEq

/-- A taxi of the snapshot. `message` is the optional transient message. -/
structure Taxi where
  id : Int
  x : ℚ
  y : ℚ
  targetX : ℚ
  targetY : ℚ
  status : JsString
  driverName : JsString
  driverAvatarUrl : JsString
  earnings : ℚ
  message : Option JsString
  passengers : List Passenger
  deriving DecidableEq

/-- The JSON document served by `GET /api/state`. -/
structure Snapshot where
  taxis : List Taxi
  passengers : List Passenger
  totalPassengersServed : Int
  queueSize : Int
  deriving DecidableEq

/-! ## Coordinate mapper -/

/-- `mapToLatLon(x, y)`: the pair `[lat, lon]`. -/
def mapToLatLon (x y : ℚ) : ℚ × ℚ :=
  let minLat : ℚ := 33.6840
  let maxLat : ℚ := 33.7460
  let minLon : ℚ := 73.0360
  let maxLon : ℚ := 73.0800
  let lat := maxLat - (y / 800) * (maxLat - minLat)
  let lon := minLon + (x / 1200) * (maxLon - minLon)
  (lat, lon)

/-! ## Markers, panels and the application state -/

/-- The four `L.divIcon` constants. -/
inductive Icon where
  | taxiIcon
  | passengerIconMale
  | passengerIconFemale
  | destinationIcon
  deriving DecidableEq

/-- A Leaflet marker object: `ref` is the object's identity. -/
structure Marker where
  ref : Nat
  latlng : ℚ × ℚ
  icon : Icon
  popup : JsString
  deriving DecidableEq

/-- The object `markers`: its own properties in insertion order. Reading a
key finds its first entry. -/
abbrev Table := List (JsString × Marker)

/-- Value of `markers[k]`; `none` is `undefined`. -/
def Table.get : Table → JsString → Option Marker
  | [], _ => none
  | (k1, m) :: r, k => if k1 = k then some m else Table.get r k

/-- Result of `markers[k] = m`: an existing property keeps its place, a new
one goes last. -/
def Table.set : Table → JsString → Marker → Table
  | [], k, m => [(k, m)]
  | (k1, m1) :: r, k, m => if k1 = k then (k, m) :: r else (k1, m1) :: Table.set r k m

/-- Result of `delete markers[k]`. -/
def Table.delete (t : Table) (k : JsString) : Table :=
  t.filter (fun e => decide (e.1 ≠ k))

/-- Own property names of `markers`, as `for (let id in markers)` visits
them: in insertion order, every key of the program being a `t-`, `p-` or
`d-` followed by an id and none an array index. -/
def Table.keys (t : Table) : List JsString := t.map Prod.fst

/-- A Leaflet call that adds a layer to the map or removes one from it. -/
inductive MapOp where
  | addLayer (ref : Nat)
  | removeLayer (ref : Nat)
  deriving DecidableEq

/-- A card of the passenger list on a driver panel. -/
structure PassengerItem where
  avatarUrl : JsString
  name : JsString
  destination : JsString
  deriving DecidableEq

/-- A driver panel (`.phone-frame.driver-app`). `earningAmount` is the amount
that `.earning-amount` shows after `Rs. `, with two decimals; an empty
`passengerList` shows the line `Searching for rides...`. -/
structure DriverPhone where
  dataId : JsString
  avatarUrl : JsString
  driverName : JsString
  earningAmount : ℚ
  statusClass : JsString
  statusText : JsString
  passengerList : List PassengerItem
  deriving DecidableEq

/-- A passenger panel (`.phone-frame.passenger-app`). -/
structure PassengerPhone where
  dataId : JsString
  avatarUrl : JsString
  name : JsString
  destination : JsString
  btnText : JsString
  btnBackground : JsString
  deriving DecidableEq

/-- A DOM call that removes a phone panel or appends one, with the panel's
`dataset.id`. -/
inductive DomOp where
  | removeDriverPhone (dataId : JsString)
  | appendDriverPhone (dataId : JsString)
  | removePassengerPhone (dataId : JsString)
  | appendPassengerPhone (dataId : JsString)
  deriving DecidableEq

/-- The two functions that `fetchState` runs on a snapshot. -/
inductive Call where
  | updateUI
  | updateMapMarkers
  deriving DecidableEq

/-- State of the page. `map` is `none` until `initMap` has run, and then
holds the identities of the marker layers on the Leaflet map.
`startDisabled` is `none` when the page has no `#start-btn`. -/
structure App where
  map : Option (List Nat)
  markers : Table
  simulationState : Option Snapshot
  passengerCount : JsString
  taxiCount : JsString
  totalServed : JsString
  queueSize : JsString
  driverPhones : List DriverPhone
  passengerPhones : List PassengerPhone
  startDisabled : Option Bool
  console : List JsString
  mapOps : List MapOp
  domOps : List DomOp
  calls : List Call

/-- The marker layers on the map (none before `initMap`). -/
def App.layers (a : App) : List Nat := a.map.getD []

/-- Whether `markers[k]` is truthy. -/
def App.tracks (a : App) (k : JsString) : Bool := (a.markers.get k).isSome

/-- Errors that a step of the program can throw. -/
inductive JsError where
  | networkError
  | syntaxError
  | typeError
  deriving DecidableEq

/-- How a call ends: the state it leaves, and the error it throws if it does
not return. -/
structure Completion where
  state : App
  thrown : Option JsError

/-! ## Leaflet primitives -/

/-- Leaflet `map.addLayer`: a layer that is on the map is not added again. -/
def addLayer (ref : Nat) (layers : List Nat) : List Nat :=
  if ref ∈ layers then layers else layers ++ [ref]

/-- Leaflet `map.removeLayer`. -/
def removeLayer (ref : Nat) (layers : List Nat) : List Nat :=
  layers.filter (fun r => decide (r ≠ ref))

/-- Identity of the object that the next `L.marker(...)` returns: one that no
object of the table and no layer of the map has. -/
def freshRef (a : App) : Nat :=
  (a.layers ++ a.markers.map (fun e => e.2.ref)).foldr max 0 + 1

/-- The statements `const m = L.marker(latlng, { icon }).addTo(map);
m.bindPopup(popup); markers[key] = m;`. -/
def addMarker (a : App) (key : JsString) (latlng : ℚ × ℚ) (icon : Icon)
    (popup : JsString) : App :=
  let r := freshRef a
  { a with
    map := a.map.map (addLayer r)
    markers := a.markers.set key ⟨r, latlng, icon, popup⟩
    mapOps := a.mapOps ++ [MapOp.addLayer r] }

/-- The statements `map.removeLayer(markers[key]); delete markers[key];`.
Every call site runs them on a key that the table holds. -/
def removeMarker (a : App) (key : JsString) : App :=
  match a.markers.get key with
  | none => a
  | some m =>
    { a with
      map := a.map.map (removeLayer m.ref)
      markers := a.markers.delete key
      mapOps := a.mapOps ++ [MapOp.removeLayer m.ref] }

/-- The statement `markers[key].setLatLng(latlng)`. -/
def setLatLng (a : App) (key : JsString) (latlng : ℚ × ℚ) : App :=
  match a.markers.get key with
  | none => a
  | some m => { a with markers := a.markers.set key { m with latlng := latlng } }

/-- The statement `markers[key].setPopupContent(content)`. -/
def setPopupContent (a : App) (key : JsString) (content : JsString) : App :=
  match a.markers.get key with
  | none => a
  | some m => { a with markers := a.markers.set key { m with popup := content } }

/-! ## Marker reconciler -/

/-- The key `'t-' + id`. -/
def taxiKey (id : Int) : JsString := "t-".toList ++ numberToString id

/-- The key `'d-' + id`. -/
def destKey (id : Int) : JsString := "d-".toList ++ numberToString id

/-- The key `'p-' + id`. -/
def passKey (id : Int) : JsString := "p-".toList ++ numberToString id

/-- The popup text of a taxi without a message. -/
def taxiPopup (t : Taxi) : JsString :=
  "<b>Taxi ".toList ++ numberToString t.id ++ "</b><br>".toList ++ t.driverName

/-- The destination-marker part of the taxi loop (the `if` on `t.status`). -/
def destStep (a : App) (t : Taxi) : App :=
  if t.status = "ON_RIDE".toList ∨ t.status = "PICKING_UP".toList then
    let d := mapToLatLon t.targetX t.targetY
    if a.tracks (destKey t.id) then setLatLng a (destKey t.id) d
    else if t.status = "ON_RIDE".toList then
      addMarker a (destKey t.id) d Icon.destinationIcon
        ("<b>Destination</b><br>Taxi ".toList ++ numberToString t.id)
    else a
  else if a.tracks (destKey t.id) then removeMarker a (destKey t.id)
  else a

/-- The popup part of the taxi loop (the `if` on `t.message`). -/
def popupStep (a : App) (t : Taxi) : App :=
  match t.message with
  | some (c :: msg) =>
    setPopupContent a (taxiKey t.id)
      (taxiPopup t ++ "<br><i>".toList ++ (c :: msg) ++ "</i>".toList)
  | _ => setPopupContent a (taxiKey t.id) (taxiPopup t)

/-- One iteration of `simulationState.taxis.forEach`; the second component
is the set `taxiIds`. -/
def taxiStep (st : App × List JsString) (t : Taxi) : App × List JsString :=
  let a := st.1
  let taxiIds := setAdd st.2 (taxiKey t.id)
  let p := mapToLatLon t.x t.y
  let a1 :=
    if a.tracks (taxiKey t.id) then setLatLng a (taxiKey t.id) p
    else addMarker a (taxiKey t.id) p Icon.taxiIcon (taxiPopup t)
  (popupStep (destStep a1 t) t, taxiIds)

/-- The icon of a passenger marker: `p.gender === 'MALE' ? passengerIconMale :
passengerIconFemale`. -/
def passengerIcon (p : Passenger) : Icon :=
  if p.gender = "MALE".toList then Icon.passengerIconMale else Icon.passengerIconFemale

/-- The popup text of a passenger marker. -/
def passengerPopup (p : Passenger) : JsString :=
  "<b>".toList ++ p.name ++ "</b><br>Going to: ".toList ++ p.destination

/-- One iteration of `simulationState.passengers.forEach`; the second
component is the set `passIds`. -/
def passengerStep (st : App × List JsString) (p : Passenger) : App × List JsString :=
  if p.status = "IN_RIDE".toList then st
  else
    let a := st.1
    let passIds := setAdd st.2 (passKey p.id)
    let q := mapToLatLon p.x p.y
    let a1 :=
      if a.tracks (passKey p.id) then setLatLng a (passKey p.id) q
      else addMarker a (passKey p.id) q (passengerIcon p) (passengerPopup p)
    (a1, passIds)

/-- The condition under which the cleanup loop removes the key `id`: the
disjunction of the conditions of its three `if`s. -/
def stale (taxiIds passIds : List JsString) (id : JsString) : Bool :=
  (startsWith id "t-".toList && !setHas taxiIds id) ||
  (startsWith id "p-".toList && !setHas passIds id) ||
  (startsWith id "d-".toList && !setHas taxiIds (replace id "d-".toList "t-".toList))

/-- The body of the cleanup loop for the key `id`: its three `if`s. -/
def cleanupBody (taxiIds passIds : List JsString) (a : App) (id : JsString) : App :=
  let a1 :=
    if startsWith id "t-".toList && !setHas taxiIds id then removeMarker a id else a
  let a2 :=
    if startsWith id "p-".toList && !setHas passIds id then removeMarker a1 id else a1
  if startsWith id "d-".toList && !setHas taxiIds (replace id "d-".toList "t-".toList)
  then removeMarker a2 id
  else a2

/-- One visit of `for (let id in markers)`: a property that was deleted
before its turn is not visited. -/
def cleanupStep (taxiIds passIds : List JsString) (a : App) (id : JsString) : App :=
  if a.tracks id then cleanupBody taxiIds passIds a id else a

/-- The body of `updateMapMarkers` once `map` and the snapshot are at hand:
taxi loop, passenger loop, cleanup loop. -/
def reconcile (s : Snapshot) (a : App) : App :=
  let st1 := s.taxis.foldl taxiStep (a, [])
  let st2 := s.passengers.foldl passengerStep (st1.1, [])
  st2.1.markers.keys.foldl (cleanupStep st1.2 st2.2) st2.1

/-- `updateMapMarkers()`. Without a map it returns at once; reading `.taxis`
of a `null` snapshot throws a `TypeError`. -/
def updateMapMarkers (a : App) : Completion :=
  let a0 := { a with calls := a.calls ++ [Call.updateMapMarkers] }
  match a0.map with
  | none => ⟨a0, none⟩
  | some _ =>
    match a0.simulationState with
    | none => ⟨a0, some JsError.typeError⟩
    | some s => ⟨reconcile s a0, none⟩

/-! ## Phone panels -/

/-- `updateDriverScreen(el, taxi)`. -/
def updateDriverScreen (el : DriverPhone) (taxi : Taxi) : DriverPhone :=
  { el with
    earningAmount := taxi.earnings
    statusClass :=
      "status-pill ".toList ++
        (if taxi.status = "AVAILABLE".toList then "status-available".toList
         else if taxi.status = "PICKING_UP".toList then "status-warning".toList
         else "status-busy".toList)
    statusText := replace taxi.status "_".toList " ".toList
    passengerList := taxi.passengers.map (fun p => ⟨p.avatarUrl, p.name, p.destination⟩) }

/-- `createDriverPhone(taxi)`. -/
def createDriverPhone (taxi : Taxi) : DriverPhone :=
  { dataId := numberToString taxi.id
    avatarUrl := taxi.driverAvatarUrl
    driverName := taxi.driverName
    earningAmount := 0
    statusClass := "status-pill".toList
    statusText := "ONLINE".toList
    passengerList := [] }

/-- Replaces the first element that satisfies `sel` (the element that
`querySelector` returned) by its updated version. -/
def updateFirst {α : Type} (sel : α → Bool) (f : α → α) : List α → List α
  | [] => []
  | e :: r => if sel e then f e :: r else e :: updateFirst sel f r

/-- One iteration of `simulationState.taxis.forEach` in `updateDriverPhones`. -/
def driverPhoneStep (a : App) (taxi : Taxi) : App :=
  let sel := fun (c : DriverPhone) => decide (c.dataId = numberToString taxi.id)
  match a.driverPhones.find? sel with
  | some _ =>
    { a with driverPhones := updateFirst sel (fun el => updateDriverScreen el taxi) a.driverPhones }
  | none =>
    { a with
      driverPhones := a.driverPhones ++ [updateDriverScreen (createDriverPhone taxi) taxi]
      domOps := a.domOps ++ [DomOp.appendDriverPhone (numberToString taxi.id)] }

/-- `updateDriverPhones()` on the snapshot `s`. -/
def updateDriverPhones (s : Snapshot) (a : App) : App :=
  let existingIds : List JsValue := s.taxis.foldl (fun ids t => setAdd ids (JsValue.number t.id)) []
  let keep := fun (c : DriverPhone) =>
    match parseInt c.dataId with
    | some n => setHas existingIds (JsValue.number n)
    | none => false
  let removed := a.driverPhones.filter (fun c => !keep c)
  let a1 :=
    { a with
      driverPhones := a.driverPhones.filter keep
      domOps := a.domOps ++ removed.map (fun c => DomOp.removeDriverPhone c.dataId) }
  s.taxis.foldl driverPhoneStep a1

/-- `updatePassengerScreen(el, p)`. -/
def updatePassengerScreen (el : PassengerPhone) (p : Passenger) : PassengerPhone :=
  if p.status = "IN_RIDE".toList then
    { el with btnText := "On Trip".toList, btnBackground := "#188038".toList }
  else
    { el with btnText := "Finding Driver...".toList, btnBackground := "#ea4335".toList }

/-- `createPassengerPhone(p)`. -/
def createPassengerPhone (p : Passenger) : PassengerPhone :=
  { dataId := numberToString p.id
    avatarUrl := p.avatarUrl
    name := p.name
    destination := p.destination
    btnText := "Requesting".toList
    btnBackground := "#1a73e8".toList }

/-- One iteration of `simulationState.passengers.forEach` in
`updatePassengerPhones`. -/
def passengerPhoneStep (a : App) (p : Passenger) : App :=
  let sel := fun (c : PassengerPhone) => decide (c.dataId = numberToString p.id)
  match a.passengerPhones.find? sel with
  | some _ =>
    { a with
      passengerPhones := updateFirst sel (fun el => updatePassengerScreen el p) a.passengerPhones }
  | none =>
    { a with
      passengerPhones := a.passengerPhones ++ [updatePassengerScreen (createPassengerPhone p) p]
      domOps := a.domOps ++ [DomOp.appendPassengerPhone (numberToString p.id)] }

/-- `updatePassengerPhones()` on the snapshot `s`. The set `existingIds`
holds the ids as the snapshot gives them (numbers) and is asked for
`child.dataset.id`, a string. -/
def updatePassengerPhones (s : Snapshot) (a : App) : App :=
  let existingIds : List JsValue :=
    s.passengers.foldl (fun ids p => setAdd ids (JsValue.number p.id)) []
  let keep := fun (c : PassengerPhone) => setHas existingIds (JsValue.string c.dataId)
  let removed := a.passengerPhones.filter (fun c => !keep c)
  let a1 :=
    { a with
      passengerPhones := a.passengerPhones.filter keep
      domOps := a.domOps ++ removed.map (fun c => DomOp.removePassengerPhone c.dataId) }
  s.passengers.foldl passengerPhoneStep a1

/-- `updateUI()`. -/
def updateUI (a : App) : App :=
  let a0 := { a with calls := a.calls ++ [Call.updateUI] }
  match a0.simulationState with
  | none => a0
  | some s =>
    let a1 :=
      { a0 with
        passengerCount := numberToString s.passengers.length
        taxiCount := numberToString s.taxis.length
        totalServed := numberToString s.totalPassengersServed
        queueSize := numberToString s.queueSize }
    updatePassengerPhones s (updateDriverPhones s a1)

/-! ## Network calls -/

/-- What `res.json()` gives: a rejection, or the snapshot. -/
inductive Body where
  | malformed
  | json (s : Snapshot)

/-- What `await fetch(url)` gives: a rejection, or a response with its `ok`
flag and its body. -/
inductive FetchOutcome where
  | rejected
  | response (ok : Bool) (body : Body)

/-- The handler `catch (e) { console.error("Connection error", e); }`. -/
def logConnectionError (a : App) : App :=
  { a with console := a.console ++ ["Connection error".toList] }

/-- `fetchState()`, given what the request to `/api/state` gives. -/
def fetchState (o : FetchOutcome) (a : App) : Completion :=
  match o with
  | FetchOutcome.rejected => ⟨logConnectionError a, none⟩
  | FetchOutcome.response ok body =>
    if ok then
      match body with
      | Body.malformed => ⟨logConnectionError a, none⟩
      | Body.json s =>
        let c := updateMapMarkers (updateUI { a with simulationState := some s })
        match c.thrown with
        | none => c
        | some _ => ⟨logConnectionError c.state, none⟩
    else ⟨a, none⟩

/-- One iteration of `for (let id in markers)` in `resetSim`:
`map.removeLayer(markers[id])`. -/
def resetStep (a : App) (id : JsString) : App :=
  match a.markers.get id with
  | none => a
  | some m =>
    { a with
      map := a.map.map (removeLayer m.ref)
      mapOps := a.mapOps ++ [MapOp.removeLayer m.ref] }

/-- `resetSim()`, given what the request to `/api/reset` gives. A rejected
request makes the `await` throw before any marker is touched; without a map
the first `map.removeLayer` throws a `TypeError`. -/
def resetSim (o : FetchOutcome) (a : App) : Completion :=
  match o with
  | FetchOutcome.rejected => ⟨a, some JsError.networkError⟩
  | FetchOutcome.response _ _ =>
    match a.map, a.markers with
    | none, _ :: _ => ⟨a, some JsError.typeError⟩
    | _, _ =>
      let a1 := a.markers.keys.foldl resetStep a
      ⟨{ a1 with markers := [], startDisabled := a1.startDisabled.map (fun _ => false) }, none⟩

/-! ## Sample states -/

/-- The page after `initMap` and before the first poll: an empty map, no
marker, no snapshot, no panel. -/
def bootApp : App :=
  { map := some []
    markers := []
    simulationState := none
    passengerCount := []
    taxiCount := []
    totalServed := []
    queueSize := []
    driverPhones := []
    passengerPhones := []
    startDisabled := some false
    console := []
    mapOps := []
    domOps := []
    calls := [] }

/-- A taxi at grid point (100, 200) whose target is (600, 400). -/
def sampleTaxi (id : Int) (status : JsString) : Taxi :=
  { id := id
    x := 100
    y := 200
    targetX := 600
    targetY := 400
    status := status
    driverName := "Ali".toList
    driverAvatarUrl := "ali.png".toList
    earnings := 0
    message := none
    passengers := [] }

/-- A passenger at grid point (300, 500). -/
def samplePassenger (id : Int) (status : JsString) : Passenger :=
  { id := id
    x := 300
    y := 500
    destination := "F-7".toList
    gender := "MALE".toList
    status := status
    name := "Sara".toList
    avatarUrl := "sara.png".toList }

/-- A snapshot with the given taxis and passengers. -/
def sampleSnapshot (taxis : List Taxi) (passengers : List Passenger) : Snapshot :=
  { taxis := taxis
    passengers := passengers
    totalPassengersServed := 0
    queueSize := 0 }

/-- One tick of the poll loop whose request succeeds with the snapshot `s`. -/
def poll (s : Snapshot) (a : App) : App :=
  (fetchState (FetchOutcome.response true (Body.json s)) a).state

/-- A marker object with the given identity, at the north-west corner. -/
def sampleMarker (ref : Nat) : Marker :=
  { ref := ref
    latlng := mapToLatLon 0 0
    icon := Icon.taxiIcon
    popup := [] }

/-- A page whose table tracks markers that the next snapshot no longer
supports: a taxi 9 with its destination, and a passenger 4. -/
def staleApp : App :=
  { bootApp with
    map := some [5, 6, 7]
    markers :=
      [(taxiKey 9, sampleMarker 5), (passKey 4, sampleMarker 6), (destKey 9, sampleMarker 7)]
    simulationState :=
      some (sampleSnapshot
        [sampleTaxi 1 "ON_RIDE".toList, sampleTaxi 2 "AVAILABLE".toList]
        [samplePassenger 3 "REQUESTING".toList, samplePassenger 4 "IN_RIDE".toList]) }

/-- The page once taxi 1, shown as `AVAILABLE` by a first snapshot, is
reported `ON_RIDE` with target (600, 400). -/
def rideApp : App :=
  { (updateMapMarkers
      { bootApp with
        simulationState := some (sampleSnapshot [sampleTaxi 1 "AVAILABLE".toList] []) }).state with
    simulationState := some (sampleSnapshot [sampleTaxi 1 "ON_RIDE".toList] []) }

/-- The page once taxi 1 is reported `AVAILABLE` again after its ride. -/
def afterRideApp : App :=
  { (updateMapMarkers rideApp).state with
    simulationState := some (sampleSnapshot [sampleTaxi 1 "AVAILABLE".toList] []) }

/-- A page with one passenger panel and one driver panel, both for id 1. -/
def panelApp : App :=
  { bootApp with
    driverPhones :=
      [updateDriverScreen (createDriverPhone (sampleTaxi 1 "AVAILABLE".toList))
        (sampleTaxi 1 "AVAILABLE".toList)]
    passengerPhones :=
      [updatePassengerScreen (createPassengerPhone (samplePassenger 1 "REQUESTING".toList))
        (samplePassenger 1 "REQUESTING".toList)] }

/-! ## Predicates on states -/

/-- The tracking table and the map agree: the layers on the map are the
marker objects that the table holds, and no object is held under two keys. -/
def Consistent (a : App) : Prop :=
  (∀ r, r ∈ a.layers ↔ ∃ k m, a.markers.get k = some m ∧ m.ref = r) ∧
  (∀ k1 k2 m1 m2, a.markers.get k1 = some m1 → a.markers.get k2 = some m2 →
    m1.ref = m2.ref → k1 = k2)

/-- The step from `a` to `b` added no layer, removed none, and left the keys
of the table as they were. -/
def Quiet (a b : App) : Prop :=
  b.map = a.map ∧ b.mapOps = a.mapOps ∧ b.markers.keys = a.markers.keys

/-- The step from `a` to `b` left the snapshot, the call history and the
presence of the map as they were. -/
def SameSession (a b : App) : Prop :=
  b.simulationState = a.simulationState ∧ b.calls = a.calls ∧ b.map.isSome = a.map.isSome

/-- The step from `a` to `b` left the map, the table, the history of map
calls, the snapshot and the call history as they were. -/
def SameMap (a b : App) : Prop :=
  b.map = a.map ∧ b.markers = a.markers ∧ b.mapOps = a.mapOps ∧
    b.simulationState = a.simulationState ∧ b.calls = a.calls

/-- The call that ended as `c` from the state `a` returned normally and
rendered nothing: snapshot, table, map, panels and the three histories are
those of `a`. -/
def NothingRendered (a : App) (c : Completion) : Prop :=
  c.thrown = none ∧ c.state.simulationState = a.simulationState ∧
    c.state.markers = a.markers ∧ c.state.map = a.map ∧
    c.state.driverPhones = a.driverPhones ∧ c.state.passengerPhones = a.passengerPhones ∧
    c.state.mapOps = a.mapOps ∧ c.state.domOps = a.domOps ∧ c.state.calls = a.calls

/-- Decoder of `numberToString`: reads a sign and a decimal value. -/
def decodeStep (st : Bool × Nat) (c : Char) : Bool × Nat :=
  if c = '-' then (true, st.2) else (st.1, 10 * st.2 + (c.toNat - 48))

/-! # Theorems -/

/-! ### Decimal rendering is injective -/

theorem digitChar_decode (b : Bool) (a k : Nat) (h : k < 10) :
    decodeStep (b, a) (Nat.digitChar k) = (b, 10 * a + k) := by
  interval_cases k <;> rfl

theorem toDigitsCore_decode (b : Bool) : ∀ (fuel n : Nat) (ds : List Char), n < fuel →
    (Nat.toDigitsCore 10 fuel n ds).foldl decodeStep (b, 0) = ds.foldl decodeStep (b, n) := by
  intro fuel
  induction fuel with
  | zero => intro n ds h; omega
  | succ f ih =>
    intro n ds h
    unfold Nat.toDigitsCore
    by_cases h0 : n / 10 = 0
    · simp only [h0, if_true, List.foldl_cons]
      rw [digitChar_decode b 0 (n % 10) (Nat.mod_lt _ (by decide))]
      have : n % 10 = n := by omega
      simp [this]
    · simp only [h0, if_false]
      rw [ih (n / 10) _ (by omega), List.foldl_cons,
        digitChar_decode b (n / 10) (n % 10) (Nat.mod_lt _ (by decide))]
      have : 10 * (n / 10) + n % 10 = n := Nat.div_add_mod n 10
      rw [this]

theorem numberToString_decode (n : Int) :
    (numberToString n).foldl decodeStep (false, 0) =
      (decide (n < 0), n.natAbs) := by
  cases n with
  | ofNat m =>
    simp only [numberToString, Nat.toDigits]
    rw [toDigitsCore_decode false (m + 1) m [] (by omega)]
    simp
  | negSucc m =>
    simp only [numberToString, Nat.toDigits, List.foldl_cons]
    have : decodeStep (false, 0) '-' = (true, 0) := rfl
    rw [this, toDigitsCore_decode true (m + 1 + 1) (m + 1) [] (by omega)]
    simp [Int.negSucc_lt_zero]

theorem numberToString_injective : Function.Injective numberToString := by
  intro a b h
  have ha := numberToString_decode a
  have hb := numberToString_decode b
  rw [h, hb] at ha
  simp only [Prod.mk.injEq, decide_eq_decide] at ha
  omega

/-! ### The marker table -/

theorem Table.get_set (t : Table) (k : JsString) (m : Marker) (k' : JsString) :
    (Table.set t k m).get k' = if k = k' then some m else t.get k' := by
  induction t with
  | nil =>
    by_cases h : k = k' <;> simp [Table.set, Table.get, h]
  | cons e r ih =>
    obtain ⟨k1, m1⟩ := e
    by_cases h1 : k1 = k
    · subst h1
      by_cases h : k1 = k' <;> simp [Table.set, Table.get, h]
    · by_cases h : k = k'
      · subst h
        simp [Table.set, Table.get, h1, ih]
      · simp [Table.set, Table.get, h1, ih, h]

theorem Table.get_delete (t : Table) (k k' : JsString) :
    (Table.delete t k).get k' = if k = k' then none else t.get k' := by
  induction t with
  | nil => simp [Table.delete, Table.get]
  | cons e r ih =>
    obtain ⟨k1, m1⟩ := e
    unfold Table.delete at ih ⊢
    by_cases h1 : k1 = k
    · subst h1
      rw [List.filter_cons_of_neg (by simp), ih]
      by_cases h : k1 = k' <;> simp [Table.get, h]
    · rw [List.filter_cons_of_pos (by simp [h1])]
      simp only [Table.get, ih]
      by_cases h : k = k'
      · subst h
        simp [h1]
      · simp [h]

theorem Table.mem_keys_iff (t : Table) (k : JsString) :
    k ∈ t.keys ↔ (t.get k).isSome = true := by
  induction t with
  | nil =>
    show k ∈ ([] : List JsString) ↔ _
    simp [Table.get]
  | cons e r ih =>
    obtain ⟨k1, m1⟩ := e
    show k ∈ k1 :: Table.keys r ↔ _
    by_cases h : k1 = k
    · simp [Table.get, h]
    · have h' : ¬ k = k1 := fun e => h e.symm
      simp [Table.get, h, h', ih]

theorem Table.keys_set_of_get (t : Table) (k : JsString) (m0 m : Marker)
    (h : t.get k = some m0) : (Table.set t k m).keys = t.keys := by
  induction t with
  | nil => simp [Table.get] at h
  | cons e r ih =>
    obtain ⟨k1, m1⟩ := e
    by_cases h1 : k1 = k
    · subst h1
      simp [Table.set, Table.keys]
    · simp only [Table.get, h1, if_false] at h
      have := ih h
      simp only [Table.keys] at this
      simp [Table.set, Table.keys, h1, this]

theorem App.tracks_iff (a : App) (k : JsString) :
    a.tracks k = true ↔ ∃ m, a.markers.get k = some m := by
  simp [App.tracks, Option.isSome_iff_exists]

/-! ### Effect of the Leaflet primitives on the table -/

theorem addMarker_get (a : App) (k : JsString) (p : ℚ × ℚ) (i : Icon) (c k' : JsString) :
    (addMarker a k p i c).markers.get k' =
      if k = k' then some ⟨freshRef a, p, i, c⟩ else a.markers.get k' := by
  simp [addMarker, Table.get_set]

theorem removeMarker_get (a : App) (k k' : JsString) :
    (removeMarker a k).markers.get k' = if k = k' then none else a.markers.get k' := by
  unfold removeMarker
  cases h : a.markers.get k with
  | none =>
    by_cases e : k = k'
    · subst e; simp [h]
    · simp [e]
  | some m => simp [Table.get_delete]

theorem setLatLng_get (a : App) (k : JsString) (p : ℚ × ℚ) (k' : JsString) :
    (setLatLng a k p).markers.get k' =
      if k = k' then (a.markers.get k).map (fun m => { m with latlng := p })
      else a.markers.get k' := by
  unfold setLatLng
  cases h : a.markers.get k with
  | none =>
    by_cases e : k = k'
    · subst e; simp [h]
    · simp [e]
  | some m => simp [Table.get_set]

theorem setPopupContent_get (a : App) (k c k' : JsString) :
    (setPopupContent a k c).markers.get k' =
      if k = k' then (a.markers.get k).map (fun m => { m with popup := c })
      else a.markers.get k' := by
  unfold setPopupContent
  cases h : a.markers.get k with
  | none =>
    by_cases e : k = k'
    · subst e; simp [h]
    · simp [e]
  | some m => simp [Table.get_set]

/-! ### Keys -/

theorem taxiKey_eq (id : Int) : taxiKey id = 't' :: '-' :: numberToString id := rfl
theorem destKey_eq (id : Int) : destKey id = 'd' :: '-' :: numberToString id := rfl
theorem passKey_eq (id : Int) : passKey id = 'p' :: '-' :: numberToString id := rfl

theorem taxiKey_inj {i j : Int} (h : taxiKey i = taxiKey j) : i = j := by
  simp only [taxiKey_eq, List.cons.injEq, true_and] at h
  exact numberToString_injective h

theorem destKey_inj {i j : Int} (h : destKey i = destKey j) : i = j := by
  simp only [destKey_eq, List.cons.injEq, true_and] at h
  exact numberToString_injective h

theorem passKey_inj {i j : Int} (h : passKey i = passKey j) : i = j := by
  simp only [passKey_eq, List.cons.injEq, true_and] at h
  exact numberToString_injective h

theorem taxiKey_ne_destKey (i j : Int) : taxiKey i ≠ destKey j := by
  simp [taxiKey_eq, destKey_eq]

theorem taxiKey_ne_passKey (i j : Int) : taxiKey i ≠ passKey j := by
  simp [taxiKey_eq, passKey_eq]

theorem destKey_ne_passKey (i j : Int) : destKey i ≠ passKey j := by
  simp [destKey_eq, passKey_eq]

theorem tag_t : "t-".toList = ['t', '-'] := rfl
theorem tag_d : "d-".toList = ['d', '-'] := rfl
theorem tag_p : "p-".toList = ['p', '-'] := rfl

theorem startsWith_iff (s : JsString) (d1 d2 : Char) :
    startsWith s [d1, d2] = true ↔ ∃ r, s = d1 :: d2 :: r := by
  match s with
  | [] => simp [startsWith, List.isPrefixOf]
  | [c] => simp [startsWith, List.isPrefixOf]
  | c1 :: c2 :: r => simp [startsWith, List.isPrefixOf]; tauto

theorem replace_tag_d (r : JsString) :
    replace ('d' :: '-' :: r) "d-".toList "t-".toList = 't' :: '-' :: r := by
  unfold replace
  simp [tag_d, tag_t, List.isPrefixOf]

/-! ### One iteration of the taxi loop -/

theorem destStep_get_of_ne (a : App) (t : Taxi) (k : JsString) (h : k ≠ destKey t.id) :
    (destStep a t).markers.get k = a.markers.get k := by
  have h' : ¬ destKey t.id = k := fun e => h e.symm
  unfold destStep
  split_ifs <;> simp [setLatLng_get, addMarker_get, removeMarker_get, h']

theorem popupStep_get (a : App) (t : Taxi) (k : JsString) :
    ∃ c, (popupStep a t).markers.get k = (setPopupContent a (taxiKey t.id) c).markers.get k := by
  unfold popupStep
  split <;> exact ⟨_, rfl⟩

theorem popupStep_get_of_ne (a : App) (t : Taxi) (k : JsString) (h : k ≠ taxiKey t.id) :
    (popupStep a t).markers.get k = a.markers.get k := by
  have h' : ¬ taxiKey t.id = k := fun e => h e.symm
  obtain ⟨c, hc⟩ := popupStep_get a t k
  rw [hc, setPopupContent_get, if_neg h']

theorem popupStep_tracks (a : App) (t : Taxi) (k : JsString) :
    (popupStep a t).tracks k = a.tracks k := by
  obtain ⟨c, hc⟩ := popupStep_get a t k
  unfold App.tracks
  rw [hc, setPopupContent_get]
  split_ifs with e
  · subst e; simp
  · rfl

theorem taxiStep_ids (st : App × List JsString) (t : Taxi) :
    (taxiStep st t).2 = setAdd st.2 (taxiKey t.id) := rfl

theorem taxiStep_get_of_ne (st : App × List JsString) (t : Taxi) (k : JsString)
    (h1 : k ≠ taxiKey t.id) (h2 : k ≠ destKey t.id) :
    (taxiStep st t).1.markers.get k = st.1.markers.get k := by
  have h' : ¬ taxiKey t.id = k := fun e => h1 e.symm
  unfold taxiStep
  simp only
  rw [popupStep_get_of_ne _ _ _ h1, destStep_get_of_ne _ _ _ h2]
  split_ifs <;> simp [setLatLng_get, addMarker_get, h']

theorem taxiStep_tracks_taxiKey (st : App × List JsString) (t : Taxi) :
    (taxiStep st t).1.tracks (taxiKey t.id) = true := by
  unfold taxiStep
  simp only
  rw [popupStep_tracks]
  unfold App.tracks
  rw [destStep_get_of_ne _ _ _ (taxiKey_ne_destKey _ _)]
  split_ifs with h
  · simp only [App.tracks] at h
    simp [setLatLng_get, h]
  · simp [addMarker_get]

theorem destStep_onRide (a : App) (t : Taxi) (h : t.status = "ON_RIDE".toList) :
    ∃ m, (destStep a t).markers.get (destKey t.id) = some m ∧
      m.latlng = mapToLatLon t.targetX t.targetY := by
  unfold destStep
  rw [if_pos (Or.inl h)]
  simp only
  by_cases h1 : a.tracks (destKey t.id) = true
  · rw [if_pos h1]
    rw [App.tracks_iff] at h1
    obtain ⟨m, hm⟩ := h1
    exact ⟨{ m with latlng := mapToLatLon t.targetX t.targetY }, by simp [setLatLng_get, hm], rfl⟩
  · rw [if_neg h1, if_pos h]
    exact ⟨_, by rw [addMarker_get, if_pos rfl], rfl⟩

theorem destStep_idle (a : App) (t : Taxi)
    (h1 : t.status ≠ "ON_RIDE".toList) (h2 : t.status ≠ "PICKING_UP".toList) :
    (destStep a t).markers.get (destKey t.id) = none := by
  unfold destStep
  rw [if_neg (fun h => h.elim h1 h2)]
  by_cases h3 : a.tracks (destKey t.id) = true
  · rw [if_pos h3, removeMarker_get, if_pos rfl]
  · rw [if_neg h3]
    simpa [App.tracks] using h3

theorem taxiStep_dest_onRide (st : App × List JsString) (t : Taxi)
    (h : t.status = "ON_RIDE".toList) :
    ∃ m, (taxiStep st t).1.markers.get (destKey t.id) = some m ∧
      m.latlng = mapToLatLon t.targetX t.targetY := by
  unfold taxiStep
  simp only
  rw [popupStep_get_of_ne _ _ _ (fun e => taxiKey_ne_destKey _ _ e.symm)]
  exact destStep_onRide _ t h

theorem taxiStep_dest_idle (st : App × List JsString) (t : Taxi)
    (h1 : t.status ≠ "ON_RIDE".toList) (h2 : t.status ≠ "PICKING_UP".toList) :
    (taxiStep st t).1.markers.get (destKey t.id) = none := by
  unfold taxiStep
  simp only
  rw [popupStep_get_of_ne _ _ _ (fun e => taxiKey_ne_destKey _ _ e.symm)]
  exact destStep_idle _ t h1 h2

/-! ### The taxi loop -/

theorem taxiLoop_ids (ts : List Taxi) (st : App × List JsString) (k : JsString) :
    k ∈ (ts.foldl taxiStep st).2 ↔ k ∈ st.2 ∨ ∃ t ∈ ts, k = taxiKey t.id := by
  induction ts generalizing st with
  | nil => simp
  | cons t r ih =>
    rw [List.foldl_cons, ih, taxiStep_ids]
    unfold setAdd
    split_ifs with h
    · constructor
      · rintro (h1 | ⟨u, hu, rfl⟩)
        · exact Or.inl h1
        · exact Or.inr ⟨u, List.mem_cons_of_mem _ hu, rfl⟩
      · rintro (h1 | ⟨u, hu, rfl⟩)
        · exact Or.inl h1
        · rcases List.mem_cons.1 hu with e | e
          · subst e; exact Or.inl h
          · exact Or.inr ⟨u, e, rfl⟩
    · simp only [List.mem_append, List.mem_singleton, List.mem_cons, exists_eq_or_imp]
      tauto

theorem taxiLoop_get_of_ne (ts : List Taxi) (st : App × List JsString) (k : JsString)
    (h : ∀ t ∈ ts, k ≠ taxiKey t.id ∧ k ≠ destKey t.id) :
    (ts.foldl taxiStep st).1.markers.get k = st.1.markers.get k := by
  induction ts generalizing st with
  | nil => rfl
  | cons t r ih =>
    rw [List.foldl_cons, ih _ (fun u hu => h u (List.mem_cons_of_mem _ hu))]
    exact taxiStep_get_of_ne st t k (h t (List.mem_cons_self _ _)).1
      (h t (List.mem_cons_self _ _)).2

/-- With pairwise distinct ids, what the loop leaves under a key of the taxi
`t` is what the iteration for `t` left there. -/
theorem taxiLoop_get_own (ts : List Taxi) (hnd : (ts.map Taxi.id).Nodup)
    (st : App × List JsString) (t : Taxi) (ht : t ∈ ts) (k : JsString)
    (hk : k = taxiKey t.id ∨ k = destKey t.id) :
    ∃ st0 : App × List JsString, st0.1.markers.get k = st.1.markers.get k ∧
      (ts.foldl taxiStep st).1.markers.get k = (taxiStep st0 t).1.markers.get k := by
  induction ts generalizing st with
  | nil => simp at ht
  | cons u r ih =>
    rw [List.map_cons, List.nodup_cons] at hnd
    rw [List.foldl_cons]
    rcases List.mem_cons.1 ht with e | e
    · subst e
      refine ⟨st, rfl, ?_⟩
      apply taxiLoop_get_of_ne
      intro v hv
      have hne : v.id ≠ t.id := fun e => hnd.1 (e ▸ List.mem_map_of_mem _ hv)
      rcases hk with rfl | rfl
      · exact ⟨fun e => hne (taxiKey_inj e).symm, fun e => taxiKey_ne_destKey _ _ e⟩
      · exact ⟨fun e => taxiKey_ne_destKey _ _ e.symm, fun e => hne (destKey_inj e).symm⟩
    · obtain ⟨st0, h0, h1⟩ := ih hnd.2 (taxiStep st u) e
      refine ⟨st0, ?_, h1⟩
      rw [h0]
      have hne : u.id ≠ t.id := fun e' => hnd.1 (e' ▸ List.mem_map_of_mem _ e)
      apply taxiStep_get_of_ne
      · rcases hk with rfl | rfl
        · exact fun e => hne (taxiKey_inj e).symm
        · exact fun e => taxiKey_ne_destKey _ _ e.symm
      · rcases hk with rfl | rfl
        · exact fun e => taxiKey_ne_destKey _ _ e
        · exact fun e => hne (destKey_inj e).symm

theorem taxiStep_tracks_mono (st : App × List JsString) (u : Taxi) (i : Int)
    (h : st.1.tracks (taxiKey i) = true) : (taxiStep st u).1.tracks (taxiKey i) = true := by
  by_cases e : taxiKey i = taxiKey u.id
  · rw [e]; exact taxiStep_tracks_taxiKey st u
  · unfold App.tracks
    rw [taxiStep_get_of_ne st u _ e (taxiKey_ne_destKey _ _)]
    exact h

theorem taxiLoop_tracks_mono (ts : List Taxi) (st : App × List JsString) (i : Int)
    (h : st.1.tracks (taxiKey i) = true) : (ts.foldl taxiStep st).1.tracks (taxiKey i) = true := by
  induction ts generalizing st with
  | nil => exact h
  | cons u r ih => exact ih _ (taxiStep_tracks_mono st u i h)

theorem taxiLoop_tracks_taxiKey (ts : List Taxi) (st : App × List JsString) (t : Taxi)
    (ht : t ∈ ts) : (ts.foldl taxiStep st).1.tracks (taxiKey t.id) = true := by
  induction ts generalizing st with
  | nil => simp at ht
  | cons u r ih =>
    rw [List.foldl_cons]
    rcases List.mem_cons.1 ht with e | e
    · subst e
      exact taxiLoop_tracks_mono r _ _ (taxiStep_tracks_taxiKey st t)
    · exact ih _ e

/-! ### The passenger loop -/

theorem passengerStep_ids (st : App × List JsString) (p : Passenger) :
    (passengerStep st p).2 =
      if p.status = "IN_RIDE".toList then st.2 else setAdd st.2 (passKey p.id) := by
  unfold passengerStep
  split_ifs <;> rfl

theorem mem_setAdd {α : Type} [DecidableEq α] (s : List α) (v w : α) :
    w ∈ setAdd s v ↔ w ∈ s ∨ w = v := by
  unfold setAdd
  split_ifs with h
  · constructor
    · exact Or.inl
    · rintro (h1 | rfl)
      · exact h1
      · exact h
  · simp

theorem passengerLoop_ids (ps : List Passenger) (st : App × List JsString) (k : JsString) :
    k ∈ (ps.foldl passengerStep st).2 ↔
      k ∈ st.2 ∨ ∃ p ∈ ps, p.status ≠ "IN_RIDE".toList ∧ k = passKey p.id := by
  induction ps generalizing st with
  | nil => simp
  | cons p r ih =>
    rw [List.foldl_cons, ih, passengerStep_ids]
    by_cases h : p.status = "IN_RIDE".toList
    · rw [if_pos h]
      simp only [List.mem_cons, exists_eq_or_imp, ne_eq, h, not_true_eq_false, false_and,
        false_or]
    · rw [if_neg h, mem_setAdd]
      simp only [List.mem_cons, exists_eq_or_imp, ne_eq, h, not_false_eq_true, true_and]
      tauto

theorem passengerStep_get_of_ne (st : App × List JsString) (p : Passenger) (k : JsString)
    (h : k ≠ passKey p.id) : (passengerStep st p).1.markers.get k = st.1.markers.get k := by
  have h' : ¬ passKey p.id = k := fun e => h e.symm
  unfold passengerStep
  by_cases h1 : p.status = "IN_RIDE".toList
  · rw [if_pos h1]
  · rw [if_neg h1]
    simp only
    by_cases h2 : st.1.tracks (passKey p.id) = true
    · rw [if_pos h2, setLatLng_get, if_neg h']
    · rw [if_neg h2, addMarker_get, if_neg h']

theorem passengerLoop_get_of_ne (ps : List Passenger) (st : App × List JsString)
    (k : JsString) (h : ∀ p ∈ ps, k ≠ passKey p.id) :
    (ps.foldl passengerStep st).1.markers.get k = st.1.markers.get k := by
  induction ps generalizing st with
  | nil => rfl
  | cons p r ih =>
    rw [List.foldl_cons, ih _ (fun u hu => h u (List.mem_cons_of_mem _ hu))]
    exact passengerStep_get_of_ne st p k (h p (List.mem_cons_self _ _))

theorem passengerStep_tracks_passKey (st : App × List JsString) (p : Passenger)
    (h : p.status ≠ "IN_RIDE".toList) :
    (passengerStep st p).1.tracks (passKey p.id) = true := by
  unfold passengerStep
  rw [if_neg h]
  simp only
  by_cases h1 : st.1.tracks (passKey p.id) = true
  · rw [if_pos h1]
    simp only [App.tracks] at h1 ⊢
    rw [setLatLng_get, if_pos rfl]
    simpa using h1
  · rw [if_neg h1]
    simp only [App.tracks]
    rw [addMarker_get, if_pos rfl]
    rfl

theorem passengerStep_tracks_mono (st : App × List JsString) (p : Passenger) (k : JsString)
    (h : st.1.tracks k = true) : (passengerStep st p).1.tracks k = true := by
  by_cases e : k = passKey p.id
  · by_cases h1 : p.status = "IN_RIDE".toList
    · unfold passengerStep
      rw [if_pos h1]
      exact h
    · rw [e]
      exact passengerStep_tracks_passKey st p h1
  · unfold App.tracks
    rw [passengerStep_get_of_ne st p k e]
    exact h

theorem passengerLoop_tracks_mono (ps : List Passenger) (st : App × List JsString)
    (k : JsString) (h : st.1.tracks k = true) :
    (ps.foldl passengerStep st).1.tracks k = true := by
  induction ps generalizing st with
  | nil => exact h
  | cons u r ih => exact ih _ (passengerStep_tracks_mono st u k h)

theorem passengerLoop_tracks_passKey (ps : List Passenger) (st : App × List JsString)
    (p : Passenger) (hp : p ∈ ps) (h : p.status ≠ "IN_RIDE".toList) :
    (ps.foldl passengerStep st).1.tracks (passKey p.id) = true := by
  induction ps generalizing st with
  | nil => simp at hp
  | cons u r ih =>
    rw [List.foldl_cons]
    rcases List.mem_cons.1 hp with e | e
    · subst e
      exact passengerLoop_tracks_mono r _ _ (passengerStep_tracks_passKey st p h)
    · exact ih _ e

/-! ### The cleanup loop -/

theorem cleanupBody_get (tIds pIds : List JsString) (a : App) (id k : JsString) :
    (cleanupBody tIds pIds a id).markers.get k =
      if id = k ∧ stale tIds pIds id = true then none else a.markers.get k := by
  unfold cleanupBody stale
  simp only
  generalize (startsWith id "t-".toList && !setHas tIds id) = c1
  generalize (startsWith id "p-".toList && !setHas pIds id) = c2
  generalize (startsWith id "d-".toList &&
    !setHas tIds (replace id "d-".toList "t-".toList)) = c3
  by_cases e : id = k <;> cases c1 <;> cases c2 <;> cases c3 <;> simp [removeMarker_get, e]

theorem cleanupStep_get (tIds pIds : List JsString) (a : App) (id k : JsString) :
    (cleanupStep tIds pIds a id).markers.get k =
      if id = k ∧ stale tIds pIds id = true then none else a.markers.get k := by
  unfold cleanupStep
  by_cases h : a.tracks id = true
  · rw [if_pos h, cleanupBody_get]
  · rw [if_neg h]
    split_ifs with h1
    · obtain ⟨rfl, -⟩ := h1
      simpa [App.tracks] using h
    · rfl

theorem cleanupLoop_get (tIds pIds : List JsString) (ks : List JsString) (a : App)
    (k : JsString) :
    (ks.foldl (cleanupStep tIds pIds) a).markers.get k =
      if k ∈ ks ∧ stale tIds pIds k = true then none else a.markers.get k := by
  induction ks generalizing a with
  | nil => simp
  | cons id r ih =>
    rw [List.foldl_cons, ih, cleanupStep_get]
    by_cases hs : stale tIds pIds k = true
    · by_cases e : id = k
      · subst e; simp [hs]
      · have e' : ¬ k = id := fun h => e h.symm
        simp [hs, e, e']
    · by_cases e : id = k
      · subst e; simp [hs]
      · simp [hs, e]

/-- What the table holds after the cleanup loop, in terms of the table that
the two loops left. -/
theorem reconcile_get (s : Snapshot) (a : App) (k : JsString) :
    (reconcile s a).markers.get k =
      if stale (s.taxis.foldl taxiStep (a, [])).2
          (s.passengers.foldl passengerStep ((s.taxis.foldl taxiStep (a, [])).1, [])).2 k = true
      then none
      else (s.passengers.foldl passengerStep
          ((s.taxis.foldl taxiStep (a, [])).1, [])).1.markers.get k := by
  unfold reconcile
  simp only
  rw [cleanupLoop_get]
  by_cases hs : stale (s.taxis.foldl taxiStep (a, [])).2
          (s.passengers.foldl passengerStep ((s.taxis.foldl taxiStep (a, [])).1, [])).2 k = true
  · by_cases hk : k ∈ (s.passengers.foldl passengerStep
          ((s.taxis.foldl taxiStep (a, [])).1, [])).1.markers.keys
    · simp [hs, hk]
    · rw [if_neg (fun h => hk h.1), if_pos hs]
      rw [Table.mem_keys_iff] at hk
      simpa using hk
  · rw [if_neg (fun h => hs h.2), if_neg hs]

/-- The staleness test in terms of the snapshot. -/
theorem stale_iff (s : Snapshot) (a : App) (k : JsString) :
    stale (s.taxis.foldl taxiStep (a, [])).2
        (s.passengers.foldl passengerStep ((s.taxis.foldl taxiStep (a, [])).1, [])).2 k = true ↔
      (startsWith k "t-".toList = true ∧ ¬ ∃ t ∈ s.taxis, k = taxiKey t.id) ∨
      (startsWith k "p-".toList = true ∧
        ¬ ∃ p ∈ s.passengers, p.status ≠ "IN_RIDE".toList ∧ k = passKey p.id) ∨
      (startsWith k "d-".toList = true ∧
        ¬ ∃ t ∈ s.taxis, replace k "d-".toList "t-".toList = taxiKey t.id) := by
  unfold stale setHas
  simp only [Bool.or_eq_true, Bool.and_eq_true, Bool.not_eq_true', decide_eq_false_iff_not,
    taxiLoop_ids, passengerLoop_ids, List.not_mem_nil, false_or, or_assoc]

/-! ### What one reconciliation leaves in the table -/

theorem startsWith_taxiKey (i : Int) :
    startsWith (taxiKey i) "t-".toList = true ∧ startsWith (taxiKey i) "p-".toList = false ∧
      startsWith (taxiKey i) "d-".toList = false := by
  simp [taxiKey_eq, startsWith, tag_t, tag_p, tag_d, List.isPrefixOf]

theorem startsWith_passKey (i : Int) :
    startsWith (passKey i) "t-".toList = false ∧ startsWith (passKey i) "p-".toList = true ∧
      startsWith (passKey i) "d-".toList = false := by
  simp [passKey_eq, startsWith, tag_t, tag_p, tag_d, List.isPrefixOf]

theorem startsWith_destKey (i : Int) :
    startsWith (destKey i) "t-".toList = false ∧ startsWith (destKey i) "p-".toList = false ∧
      startsWith (destKey i) "d-".toList = true := by
  simp [destKey_eq, startsWith, tag_t, tag_p, tag_d, List.isPrefixOf]

theorem replace_destKey (i : Int) :
    replace (destKey i) "d-".toList "t-".toList = taxiKey i := by
  rw [destKey_eq, replace_tag_d, taxiKey_eq]

theorem reconcile_tracks (s : Snapshot) (a : App) (k : JsString) :
    (reconcile s a).tracks k = true ↔
      (s.passengers.foldl passengerStep ((s.taxis.foldl taxiStep (a, [])).1, [])).1.tracks k = true ∧
      ¬ ((startsWith k "t-".toList = true ∧ ¬ ∃ t ∈ s.taxis, k = taxiKey t.id) ∨
      (startsWith k "p-".toList = true ∧
        ¬ ∃ p ∈ s.passengers, p.status ≠ "IN_RIDE".toList ∧ k = passKey p.id) ∨
      (startsWith k "d-".toList = true ∧
        ¬ ∃ t ∈ s.taxis, replace k "d-".toList "t-".toList = taxiKey t.id)) := by
  unfold App.tracks
  rw [reconcile_get, ← stale_iff s a k]
  split_ifs with h
  · simp [h]
  · simp [h]

theorem taxiKey_fresh (s : Snapshot) (t : Taxi) (ht : t ∈ s.taxis) :
    ¬ ((startsWith (taxiKey t.id) "t-".toList = true ∧ ¬ ∃ u ∈ s.taxis, taxiKey t.id = taxiKey u.id) ∨
      (startsWith (taxiKey t.id) "p-".toList = true ∧
        ¬ ∃ p ∈ s.passengers, p.status ≠ "IN_RIDE".toList ∧ taxiKey t.id = passKey p.id) ∨
      (startsWith (taxiKey t.id) "d-".toList = true ∧
        ¬ ∃ u ∈ s.taxis, replace (taxiKey t.id) "d-".toList "t-".toList = taxiKey u.id)) := by
  rw [(startsWith_taxiKey t.id).2.1, (startsWith_taxiKey t.id).2.2]
  rintro (⟨-, h⟩ | ⟨h, -⟩ | ⟨h, -⟩)
  · exact h ⟨t, ht, rfl⟩
  · exact Bool.false_ne_true h
  · exact Bool.false_ne_true h

theorem destKey_fresh (s : Snapshot) (t : Taxi) (ht : t ∈ s.taxis) :
    ¬ ((startsWith (destKey t.id) "t-".toList = true ∧ ¬ ∃ u ∈ s.taxis, destKey t.id = taxiKey u.id) ∨
      (startsWith (destKey t.id) "p-".toList = true ∧
        ¬ ∃ p ∈ s.passengers, p.status ≠ "IN_RIDE".toList ∧ destKey t.id = passKey p.id) ∨
      (startsWith (destKey t.id) "d-".toList = true ∧
        ¬ ∃ u ∈ s.taxis, replace (destKey t.id) "d-".toList "t-".toList = taxiKey u.id)) := by
  rw [(startsWith_destKey t.id).1, (startsWith_destKey t.id).2.1, replace_destKey]
  rintro (⟨h, -⟩ | ⟨h, -⟩ | ⟨-, h⟩)
  · exact Bool.false_ne_true h
  · exact Bool.false_ne_true h
  · exact h ⟨t, ht, rfl⟩

theorem passKey_fresh (s : Snapshot) (p : Passenger) (hp : p ∈ s.passengers)
    (hst : p.status ≠ "IN_RIDE".toList) :
    ¬ ((startsWith (passKey p.id) "t-".toList = true ∧ ¬ ∃ u ∈ s.taxis, passKey p.id = taxiKey u.id) ∨
      (startsWith (passKey p.id) "p-".toList = true ∧
        ¬ ∃ q ∈ s.passengers, q.status ≠ "IN_RIDE".toList ∧ passKey p.id = passKey q.id) ∨
      (startsWith (passKey p.id) "d-".toList = true ∧
        ¬ ∃ u ∈ s.taxis, replace (passKey p.id) "d-".toList "t-".toList = taxiKey u.id)) := by
  rw [(startsWith_passKey p.id).1, (startsWith_passKey p.id).2.2]
  rintro (⟨h, -⟩ | ⟨-, h⟩ | ⟨h, -⟩)
  · exact Bool.false_ne_true h
  · exact h ⟨p, hp, hst, rfl⟩
  · exact Bool.false_ne_true h

theorem reconcile_tracks_taxiKey (s : Snapshot) (a : App) (t : Taxi) (ht : t ∈ s.taxis) :
    (reconcile s a).tracks (taxiKey t.id) = true := by
  rw [reconcile_tracks]
  refine ⟨?_, taxiKey_fresh s t ht⟩
  apply passengerLoop_tracks_mono
  exact taxiLoop_tracks_taxiKey s.taxis (a, []) t ht

theorem reconcile_tracks_passKey (s : Snapshot) (a : App) (p : Passenger)
    (hp : p ∈ s.passengers) (hst : p.status ≠ "IN_RIDE".toList) :
    (reconcile s a).tracks (passKey p.id) = true := by
  rw [reconcile_tracks]
  exact ⟨passengerLoop_tracks_passKey s.passengers _ p hp hst, passKey_fresh s p hp hst⟩

theorem reconcile_taxi_keys (s : Snapshot) (a : App) (k : JsString) :
    (startsWith k "t-".toList = true ∧ (reconcile s a).tracks k = true) ↔
      ∃ t ∈ s.taxis, k = taxiKey t.id := by
  constructor
  · rintro ⟨h1, h2⟩
    rw [reconcile_tracks] at h2
    by_contra hc
    exact h2.2 (Or.inl ⟨h1, hc⟩)
  · rintro ⟨t, ht, rfl⟩
    exact ⟨(startsWith_taxiKey t.id).1, reconcile_tracks_taxiKey s a t ht⟩

theorem reconcile_passenger_keys (s : Snapshot) (a : App) (k : JsString) :
    (startsWith k "p-".toList = true ∧ (reconcile s a).tracks k = true) ↔
      ∃ p ∈ s.passengers, p.status ≠ "IN_RIDE".toList ∧ k = passKey p.id := by
  constructor
  · rintro ⟨h1, h2⟩
    rw [reconcile_tracks] at h2
    by_contra hc
    exact h2.2 (Or.inr (Or.inl ⟨h1, hc⟩))
  · rintro ⟨p, hp, hst, rfl⟩
    exact ⟨(startsWith_passKey p.id).2.1, reconcile_tracks_passKey s a p hp hst⟩

theorem reconcile_inRide (s : Snapshot) (a : App)
    (hnd : (s.passengers.map Passenger.id).Nodup) (p : Passenger) (hp : p ∈ s.passengers)
    (hst : p.status = "IN_RIDE".toList) : (reconcile s a).tracks (passKey p.id) = false := by
  by_contra hc
  rw [Bool.not_eq_false] at hc
  obtain ⟨q, hq, hqs, e⟩ :=
    (reconcile_passenger_keys s a (passKey p.id)).1 ⟨(startsWith_passKey p.id).2.1, hc⟩
  have : p = q := List.inj_on_of_nodup_map hnd hp hq (passKey_inj e)
  subst this
  exact hqs hst

theorem reconcile_get_destKey (s : Snapshot) (a : App) (hnd : (s.taxis.map Taxi.id).Nodup)
    (t : Taxi) (ht : t ∈ s.taxis) :
    ∃ st0 : App × List JsString, st0.1.markers.get (destKey t.id) = a.markers.get (destKey t.id) ∧
      (reconcile s a).markers.get (destKey t.id) = (taxiStep st0 t).1.markers.get (destKey t.id) := by
  obtain ⟨st0, h0, h1⟩ := taxiLoop_get_own s.taxis hnd (a, []) t ht (destKey t.id) (Or.inr rfl)
  refine ⟨st0, h0, ?_⟩
  rw [reconcile_get, if_neg, passengerLoop_get_of_ne _ _ _ (fun p _ => destKey_ne_passKey _ _), h1]
  rw [stale_iff]
  exact destKey_fresh s t ht

theorem updateMapMarkers_eq (a : App) (l : List Nat) (s : Snapshot) (hm : a.map = some l)
    (hs : a.simulationState = some s) :
    updateMapMarkers a =
      ⟨reconcile s { a with calls := a.calls ++ [Call.updateMapMarkers] }, none⟩ := by
  unfold updateMapMarkers
  simp only [hm, hs]

/-! ### The table and the map stay in step -/

theorem le_foldr_max (l : List Nat) (x : Nat) (h : x ∈ l) : x ≤ l.foldr max 0 := by
  induction l with
  | nil => simp at h
  | cons y r ih =>
    rcases List.mem_cons.1 h with e | e
    · subst e; simp
    · have := ih e
      simp only [List.foldr_cons]
      omega

theorem Table.mem_of_get (t : Table) (k : JsString) (m : Marker) (h : t.get k = some m) :
    (k, m) ∈ t := by
  induction t with
  | nil => simp [Table.get] at h
  | cons e r ih =>
    obtain ⟨k1, m1⟩ := e
    by_cases h1 : k1 = k
    · simp only [Table.get, h1, if_true, Option.some.injEq] at h
      subst h1 h
      exact List.mem_cons_self _ _
    · simp only [Table.get, h1, if_false] at h
      exact List.mem_cons_of_mem _ (ih h)

theorem freshRef_not_mem_layers (a : App) : freshRef a ∉ a.layers := by
  intro h
  have := le_foldr_max (a.layers ++ a.markers.map (fun e => e.2.ref)) _
    (List.mem_append_left _ h)
  unfold freshRef at this
  omega

theorem freshRef_ne_ref (a : App) (k : JsString) (m : Marker) (h : a.markers.get k = some m) :
    m.ref ≠ freshRef a := by
  intro e
  have hm : m.ref ∈ a.markers.map (fun e => e.2.ref) :=
    List.mem_map_of_mem (fun e => e.2.ref) (Table.mem_of_get _ _ _ h)
  have := le_foldr_max (a.layers ++ a.markers.map (fun e => e.2.ref)) _
    (List.mem_append_right _ hm)
  unfold freshRef at e
  omega

theorem layers_of_map (a : App) (l : List Nat) (h : a.map = some l) : a.layers = l := by
  simp [App.layers, h]

theorem Consistent.congr {a b : App} (h1 : b.map = a.map) (h2 : b.markers = a.markers)
    (hc : Consistent a) : Consistent b := by
  unfold Consistent App.layers at *
  rw [h1, h2]
  exact hc

theorem addMarker_consistent (a : App) (k : JsString) (p : ℚ × ℚ) (i : Icon) (c : JsString)
    (hm : a.map.isSome = true) (hk : a.tracks k = false) (hc : Consistent a) :
    Consistent (addMarker a k p i c) := by
  obtain ⟨l, hl⟩ := Option.isSome_iff_exists.1 hm
  have hlay : (addMarker a k p i c).layers = a.layers ++ [freshRef a] := by
    have h1 : a.layers = l := layers_of_map a l hl
    have h2 : freshRef a ∉ l := h1 ▸ freshRef_not_mem_layers a
    simp [addMarker, App.layers, hl, addLayer, h2]
  have hk' : a.markers.get k = none := by simpa [App.tracks] using hk
  constructor
  · intro r
    rw [hlay, List.mem_append, List.mem_singleton, hc.1 r]
    constructor
    · rintro (⟨k', m, h1, h2⟩ | rfl)
      · refine ⟨k', m, ?_, h2⟩
        rw [addMarker_get, if_neg]
        · exact h1
        · rintro rfl
          rw [hk'] at h1
          cases h1
      · exact ⟨k, _, by rw [addMarker_get, if_pos rfl], rfl⟩
    · rintro ⟨k', m, h1, h2⟩
      rw [addMarker_get] at h1
      split_ifs at h1 with e
      · right
        cases h1
        exact h2.symm
      · exact Or.inl ⟨k', m, h1, h2⟩
  · intro k1 k2 m1 m2 h1 h2 e
    rw [addMarker_get] at h1 h2
    split_ifs at h1 with e1 <;> split_ifs at h2 with e2
    · exact e1.symm.trans e2
    · cases h1
      exact absurd e.symm (freshRef_ne_ref a k2 m2 h2)
    · cases h2
      exact absurd e (freshRef_ne_ref a k1 m1 h1)
    · exact hc.2 k1 k2 m1 m2 h1 h2 e

theorem layers_removeLayer (a : App) (f : List Nat → List Nat) (hf : f [] = [])
    (b : App) (hb : b.map = a.map.map f) : b.layers = f a.layers := by
  unfold App.layers
  rw [hb]
  cases a.map with
  | none => simp [hf]
  | some l => simp

theorem removeMarker_consistent (a : App) (k : JsString) (hc : Consistent a) :
    Consistent (removeMarker a k) := by
  cases h : a.markers.get k with
  | none =>
    have : removeMarker a k = a := by simp [removeMarker, h]
    rw [this]; exact hc
  | some m0 =>
    have hlay : (removeMarker a k).layers = removeLayer m0.ref a.layers := by
      apply layers_removeLayer a (removeLayer m0.ref) rfl
      simp [removeMarker, h]
    constructor
    · intro r
      rw [hlay]
      simp only [removeLayer, List.mem_filter, decide_eq_true_eq, hc.1 r]
      constructor
      · rintro ⟨⟨k', m, h1, h2⟩, hne⟩
        refine ⟨k', m, ?_, h2⟩
        rw [removeMarker_get, if_neg]
        · exact h1
        · rintro rfl
          rw [h] at h1
          cases h1
          exact hne h2.symm
      · rintro ⟨k', m, h1, h2⟩
        rw [removeMarker_get] at h1
        split_ifs at h1 with e
        refine ⟨⟨k', m, h1, h2⟩, ?_⟩
        intro e2
        exact e (hc.2 k k' m0 m h h1 (e2 ▸ h2.symm))
    · intro k1 k2 m1 m2 h1 h2 e
      rw [removeMarker_get] at h1 h2
      split_ifs at h1 with e1
      split_ifs at h2 with e2
      exact hc.2 k1 k2 m1 m2 h1 h2 e

theorem consistent_of_refs {a b : App} (hmap : b.map = a.map)
    (hget : ∀ k, (b.markers.get k).map Marker.ref = (a.markers.get k).map Marker.ref)
    (hc : Consistent a) : Consistent b := by
  have key : ∀ k m, b.markers.get k = some m → ∃ m', a.markers.get k = some m' ∧ m'.ref = m.ref := by
    intro k m h
    have := hget k
    rw [h] at this
    cases h' : a.markers.get k with
    | none => rw [h'] at this; cases this
    | some m' =>
      rw [h'] at this
      simp only [Option.map_some', Option.some.injEq] at this
      exact ⟨m', rfl, this.symm⟩
  have key' : ∀ k m, a.markers.get k = some m → ∃ m', b.markers.get k = some m' ∧ m'.ref = m.ref := by
    intro k m h
    have := hget k
    rw [h] at this
    cases h' : b.markers.get k with
    | none => rw [h'] at this; cases this
    | some m' =>
      rw [h'] at this
      simp only [Option.map_some', Option.some.injEq] at this
      exact ⟨m', rfl, this⟩
  constructor
  · intro r
    have : b.layers = a.layers := by simp [App.layers, hmap]
    rw [this, hc.1 r]
    constructor
    · rintro ⟨k, m, h1, h2⟩
      obtain ⟨m', h3, h4⟩ := key' k m h1
      exact ⟨k, m', h3, h4.trans h2⟩
    · rintro ⟨k, m, h1, h2⟩
      obtain ⟨m', h3, h4⟩ := key k m h1
      exact ⟨k, m', h3, h4.trans h2⟩
  · intro k1 k2 m1 m2 h1 h2 e
    obtain ⟨m1', h3, h4⟩ := key k1 m1 h1
    obtain ⟨m2', h5, h6⟩ := key k2 m2 h2
    exact hc.2 k1 k2 m1' m2' h3 h5 (by rw [h4, h6, e])

theorem setLatLng_map (a : App) (k : JsString) (p : ℚ × ℚ) : (setLatLng a k p).map = a.map := by
  unfold setLatLng
  split <;> rfl

theorem setPopupContent_map (a : App) (k c : JsString) :
    (setPopupContent a k c).map = a.map := by
  unfold setPopupContent
  split <;> rfl

theorem setLatLng_consistent (a : App) (k : JsString) (p : ℚ × ℚ) (hc : Consistent a) :
    Consistent (setLatLng a k p) := by
  refine consistent_of_refs (setLatLng_map a k p) ?_ hc
  intro k'
  rw [setLatLng_get]
  split_ifs with e
  · subst e
    cases a.markers.get k <;> rfl
  · rfl

theorem setPopupContent_consistent (a : App) (k c : JsString) (hc : Consistent a) :
    Consistent (setPopupContent a k c) := by
  refine consistent_of_refs (setPopupContent_map a k c) ?_ hc
  intro k'
  rw [setPopupContent_get]
  split_ifs with e
  · subst e
    cases a.markers.get k <;> rfl
  · rfl

/-! ### Fields that the reconciler leaves alone -/

theorem sameSession_refl (a : App) : SameSession a a := ⟨rfl, rfl, rfl⟩

theorem sameSession_trans {a b c : App} (h1 : SameSession a b) (h2 : SameSession b c) :
    SameSession a c :=
  ⟨h2.1.trans h1.1, h2.2.1.trans h1.2.1, h2.2.2.trans h1.2.2⟩

theorem addMarker_sameSession (a : App) (k : JsString) (p : ℚ × ℚ) (i : Icon) (c : JsString) :
    SameSession a (addMarker a k p i c) := by
  refine ⟨rfl, rfl, ?_⟩
  simp [addMarker]

theorem removeMarker_sameSession (a : App) (k : JsString) :
    SameSession a (removeMarker a k) := by
  unfold removeMarker
  split
  · exact sameSession_refl a
  · refine ⟨rfl, rfl, ?_⟩
    simp

theorem setLatLng_sameSession (a : App) (k : JsString) (p : ℚ × ℚ) :
    SameSession a (setLatLng a k p) := by
  unfold setLatLng
  split
  · exact sameSession_refl a
  · exact ⟨rfl, rfl, rfl⟩

theorem setPopupContent_sameSession (a : App) (k c : JsString) :
    SameSession a (setPopupContent a k c) := by
  unfold setPopupContent
  split
  · exact sameSession_refl a
  · exact ⟨rfl, rfl, rfl⟩

/-- What every iteration of the reconciler keeps: the session fields, and,
with a map, the agreement of the table and the map. -/
theorem destStep_keeps (a : App) (t : Taxi) :
    SameSession a (destStep a t) ∧
      (a.map.isSome = true → Consistent a → Consistent (destStep a t)) := by
  unfold destStep
  by_cases h : t.status = "ON_RIDE".toList ∨ t.status = "PICKING_UP".toList
  · rw [if_pos h]
    simp only
    by_cases h1 : a.tracks (destKey t.id) = true
    · rw [if_pos h1]
      exact ⟨setLatLng_sameSession _ _ _, fun _ hc => setLatLng_consistent _ _ _ hc⟩
    · rw [if_neg h1]
      by_cases h2 : t.status = "ON_RIDE".toList
      · rw [if_pos h2]
        exact ⟨addMarker_sameSession _ _ _ _ _, fun hm hc =>
          addMarker_consistent _ _ _ _ _ hm (by simpa using h1) hc⟩
      · rw [if_neg h2]
        exact ⟨sameSession_refl a, fun _ hc => hc⟩
  · rw [if_neg h]
    by_cases h1 : a.tracks (destKey t.id) = true
    · rw [if_pos h1]
      exact ⟨removeMarker_sameSession _ _, fun _ hc => removeMarker_consistent _ _ hc⟩
    · rw [if_neg h1]
      exact ⟨sameSession_refl a, fun _ hc => hc⟩

theorem popupStep_keeps (a : App) (t : Taxi) :
    SameSession a (popupStep a t) ∧
      (a.map.isSome = true → Consistent a → Consistent (popupStep a t)) := by
  unfold popupStep
  split
  · exact ⟨setPopupContent_sameSession _ _ _, fun _ hc => setPopupContent_consistent _ _ _ hc⟩
  · exact ⟨setPopupContent_sameSession _ _ _, fun _ hc => setPopupContent_consistent _ _ _ hc⟩

theorem taxiStep_keeps (st : App × List JsString) (t : Taxi) :
    SameSession st.1 (taxiStep st t).1 ∧
      (st.1.map.isSome = true → Consistent st.1 → Consistent (taxiStep st t).1) := by
  unfold taxiStep
  simp only
  have key : ∀ a1 : App, SameSession st.1 a1 →
      (st.1.map.isSome = true → Consistent st.1 → Consistent a1) →
      SameSession st.1 (popupStep (destStep a1 t) t) ∧
        (st.1.map.isSome = true → Consistent st.1 →
          Consistent (popupStep (destStep a1 t) t)) := by
    intro a1 hs hc
    have hd := destStep_keeps a1 t
    have hp := popupStep_keeps (destStep a1 t) t
    refine ⟨sameSession_trans hs (sameSession_trans hd.1 hp.1), fun hm hc0 => ?_⟩
    have hm1 : a1.map.isSome = true := hs.2.2.trans hm
    exact hp.2 (hd.1.2.2.trans hm1) (hd.2 hm1 (hc hm hc0))
  by_cases h : st.1.tracks (taxiKey t.id) = true
  · rw [if_pos h]
    exact key _ (setLatLng_sameSession _ _ _) (fun _ hc => setLatLng_consistent _ _ _ hc)
  · rw [if_neg h]
    exact key _ (addMarker_sameSession _ _ _ _ _) (fun hm hc =>
      addMarker_consistent _ _ _ _ _ hm (by simpa using h) hc)

theorem passengerStep_keeps (st : App × List JsString) (p : Passenger) :
    SameSession st.1 (passengerStep st p).1 ∧
      (st.1.map.isSome = true → Consistent st.1 → Consistent (passengerStep st p).1) := by
  unfold passengerStep
  by_cases h1 : p.status = "IN_RIDE".toList
  · rw [if_pos h1]
    exact ⟨sameSession_refl _, fun _ hc => hc⟩
  · rw [if_neg h1]
    simp only
    by_cases h : st.1.tracks (passKey p.id) = true
    · rw [if_pos h]
      exact ⟨setLatLng_sameSession _ _ _, fun _ hc => setLatLng_consistent _ _ _ hc⟩
    · rw [if_neg h]
      exact ⟨addMarker_sameSession _ _ _ _ _, fun hm hc =>
        addMarker_consistent _ _ _ _ _ hm (by simpa using h) hc⟩

theorem cleanupStep_keeps (tIds pIds : List JsString) (a : App) (id : JsString) :
    SameSession a (cleanupStep tIds pIds a id) ∧
      (a.map.isSome = true → Consistent a → Consistent (cleanupStep tIds pIds a id)) := by
  unfold cleanupStep
  by_cases h : a.tracks id = true
  · rw [if_pos h]
    unfold cleanupBody
    simp only
    have step : ∀ (c : Bool) (b : App), SameSession a b → (Consistent a → Consistent b) →
        SameSession a (if c = true then removeMarker b id else b) ∧
          (Consistent a → Consistent (if c = true then removeMarker b id else b)) := by
      intro c b hs hc
      cases c
      · exact ⟨hs, hc⟩
      · exact ⟨sameSession_trans hs (removeMarker_sameSession b id), fun h0 =>
          removeMarker_consistent b id (hc h0)⟩
    have s1 := step (startsWith id "t-".toList && !setHas tIds id) a (sameSession_refl a) (fun hc => hc)
    have s2 := step (startsWith id "p-".toList && !setHas pIds id) _ s1.1 s1.2
    have s3 := step (startsWith id "d-".toList &&
      !setHas tIds (replace id "d-".toList "t-".toList)) _ s2.1 s2.2
    exact ⟨s3.1, fun _ hc => s3.2 hc⟩
  · rw [if_neg h]
    exact ⟨sameSession_refl a, fun _ hc => hc⟩

/-- Lifts what one iteration keeps to a whole loop. -/
theorem loop_keeps {σ ι : Type} (proj : σ → App) (f : σ → ι → σ)
    (hf : ∀ st x, SameSession (proj st) (proj (f st x)) ∧
      ((proj st).map.isSome = true → Consistent (proj st) → Consistent (proj (f st x))))
    (l : List ι) (st : σ) :
    SameSession (proj st) (proj (l.foldl f st)) ∧
      ((proj st).map.isSome = true → Consistent (proj st) →
        Consistent (proj (l.foldl f st))) := by
  induction l generalizing st with
  | nil => exact ⟨sameSession_refl _, fun _ hc => hc⟩
  | cons x r ih =>
    rw [List.foldl_cons]
    have h1 := hf st x
    have h2 := ih (f st x)
    exact ⟨sameSession_trans h1.1 h2.1, fun hm hc => h2.2 (h1.1.2.2.trans hm) (h1.2 hm hc)⟩

theorem reconcile_keeps (s : Snapshot) (a : App) :
    SameSession a (reconcile s a) ∧
      (a.map.isSome = true → Consistent a → Consistent (reconcile s a)) := by
  unfold reconcile
  simp only
  have h1 := loop_keeps Prod.fst taxiStep taxiStep_keeps s.taxis (a, [])
  have h2 := loop_keeps Prod.fst passengerStep passengerStep_keeps s.passengers
    ((s.taxis.foldl taxiStep (a, [])).1, [])
  have h3 := loop_keeps id (cleanupStep (s.taxis.foldl taxiStep (a, [])).2
    (s.passengers.foldl passengerStep ((s.taxis.foldl taxiStep (a, [])).1, [])).2)
    (cleanupStep_keeps _ _)
    (s.passengers.foldl passengerStep ((s.taxis.foldl taxiStep (a, [])).1, [])).1.markers.keys
    (s.passengers.foldl passengerStep ((s.taxis.foldl taxiStep (a, [])).1, [])).1
  simp only [id] at h3
  refine ⟨sameSession_trans h1.1 (sameSession_trans h2.1 h3.1), fun hm hc => ?_⟩
  have hm1 := h1.1.2.2.trans hm
  exact h3.2 (h2.1.2.2.trans hm1) (h2.2 hm1 (h1.2 hm hc))

/-! ### A pass over a settled table does nothing -/

theorem quiet_refl (a : App) : Quiet a a := ⟨rfl, rfl, rfl⟩

theorem quiet_trans {a b c : App} (h1 : Quiet a b) (h2 : Quiet b c) : Quiet a c :=
  ⟨h2.1.trans h1.1, h2.2.1.trans h1.2.1, h2.2.2.trans h1.2.2⟩

theorem quiet_tracks {a b : App} (h : Quiet a b) (k : JsString) : b.tracks k = a.tracks k := by
  rw [Bool.eq_iff_iff]
  unfold App.tracks
  rw [← Table.mem_keys_iff, ← Table.mem_keys_iff, h.2.2]

theorem setLatLng_quiet (a : App) (k : JsString) (p : ℚ × ℚ) : Quiet a (setLatLng a k p) := by
  unfold setLatLng
  cases h : a.markers.get k with
  | none => exact quiet_refl a
  | some m => exact ⟨rfl, rfl, Table.keys_set_of_get _ _ m _ h⟩

theorem setPopupContent_quiet (a : App) (k c : JsString) :
    Quiet a (setPopupContent a k c) := by
  unfold setPopupContent
  cases h : a.markers.get k with
  | none => exact quiet_refl a
  | some m => exact ⟨rfl, rfl, Table.keys_set_of_get _ _ m _ h⟩

theorem popupStep_quiet (a : App) (t : Taxi) : Quiet a (popupStep a t) := by
  unfold popupStep
  split <;> exact setPopupContent_quiet _ _ _

theorem destStep_quiet (a : App) (t : Taxi)
    (h2 : t.status = "ON_RIDE".toList → a.tracks (destKey t.id) = true)
    (h3 : t.status ≠ "ON_RIDE".toList → t.status ≠ "PICKING_UP".toList →
      a.tracks (destKey t.id) = false) : Quiet a (destStep a t) := by
  unfold destStep
  by_cases h : t.status = "ON_RIDE".toList ∨ t.status = "PICKING_UP".toList
  · rw [if_pos h]
    simp only
    by_cases h1 : a.tracks (destKey t.id) = true
    · rw [if_pos h1]
      exact setLatLng_quiet _ _ _
    · rw [if_neg h1]
      by_cases h4 : t.status = "ON_RIDE".toList
      · exact absurd (h2 h4) h1
      · rw [if_neg h4]
        exact quiet_refl a
  · rw [if_neg h]
    have := h3 (fun e => h (Or.inl e)) (fun e => h (Or.inr e))
    rw [if_neg (by simp [this])]
    exact quiet_refl a

theorem taxiStep_quiet (st : App × List JsString) (t : Taxi)
    (h1 : st.1.tracks (taxiKey t.id) = true)
    (h2 : t.status = "ON_RIDE".toList → st.1.tracks (destKey t.id) = true)
    (h3 : t.status ≠ "ON_RIDE".toList → t.status ≠ "PICKING_UP".toList →
      st.1.tracks (destKey t.id) = false) : Quiet st.1 (taxiStep st t).1 := by
  unfold taxiStep
  simp only
  rw [if_pos h1]
  have q1 := setLatLng_quiet st.1 (taxiKey t.id) (mapToLatLon t.x t.y)
  have q2 := destStep_quiet (setLatLng st.1 (taxiKey t.id) (mapToLatLon t.x t.y)) t
    (fun e => (quiet_tracks q1 _).trans (h2 e)) (fun e1 e2 => (quiet_tracks q1 _).trans (h3 e1 e2))
  exact quiet_trans q1 (quiet_trans q2 (popupStep_quiet _ t))

theorem taxiLoop_quiet (ts : List Taxi) (st : App × List JsString)
    (h1 : ∀ t ∈ ts, st.1.tracks (taxiKey t.id) = true)
    (h2 : ∀ t ∈ ts, t.status = "ON_RIDE".toList → st.1.tracks (destKey t.id) = true)
    (h3 : ∀ t ∈ ts, t.status ≠ "ON_RIDE".toList → t.status ≠ "PICKING_UP".toList →
      st.1.tracks (destKey t.id) = false) : Quiet st.1 (ts.foldl taxiStep st).1 := by
  induction ts generalizing st with
  | nil => exact quiet_refl _
  | cons t r ih =>
    rw [List.foldl_cons]
    have q := taxiStep_quiet st t (h1 t (List.mem_cons_self _ _)) (h2 t (List.mem_cons_self _ _))
      (h3 t (List.mem_cons_self _ _))
    refine quiet_trans q (ih _ ?_ ?_ ?_)
    · intro u hu
      exact (quiet_tracks q _).trans (h1 u (List.mem_cons_of_mem _ hu))
    · intro u hu e
      exact (quiet_tracks q _).trans (h2 u (List.mem_cons_of_mem _ hu) e)
    · intro u hu e1 e2
      exact (quiet_tracks q _).trans (h3 u (List.mem_cons_of_mem _ hu) e1 e2)

theorem passengerStep_quiet (st : App × List JsString) (p : Passenger)
    (h : p.status ≠ "IN_RIDE".toList → st.1.tracks (passKey p.id) = true) :
    Quiet st.1 (passengerStep st p).1 := by
  unfold passengerStep
  by_cases h1 : p.status = "IN_RIDE".toList
  · rw [if_pos h1]
    exact quiet_refl _
  · rw [if_neg h1]
    simp only
    rw [if_pos (h h1)]
    exact setLatLng_quiet _ _ _

theorem passengerLoop_quiet (ps : List Passenger) (st : App × List JsString)
    (h : ∀ p ∈ ps, p.status ≠ "IN_RIDE".toList → st.1.tracks (passKey p.id) = true) :
    Quiet st.1 (ps.foldl passengerStep st).1 := by
  induction ps generalizing st with
  | nil => exact quiet_refl _
  | cons p r ih =>
    rw [List.foldl_cons]
    have q := passengerStep_quiet st p (h p (List.mem_cons_self _ _))
    refine quiet_trans q (ih _ ?_)
    intro u hu e
    exact (quiet_tracks q _).trans (h u (List.mem_cons_of_mem _ hu) e)

theorem cleanupStep_of_fresh (tIds pIds : List JsString) (a : App) (id : JsString)
    (h : a.tracks id = true → stale tIds pIds id = false) : cleanupStep tIds pIds a id = a := by
  unfold cleanupStep
  by_cases ht : a.tracks id = true
  · rw [if_pos ht]
    have hs := h ht
    unfold stale at hs
    simp only [Bool.or_eq_false_iff] at hs
    unfold cleanupBody
    simp only [hs.1.1, hs.1.2, hs.2]
    simp
  · rw [if_neg ht]

theorem cleanupLoop_of_fresh (tIds pIds : List JsString) (ks : List JsString) (a : App)
    (h : ∀ k, a.tracks k = true → stale tIds pIds k = false) :
    ks.foldl (cleanupStep tIds pIds) a = a := by
  induction ks with
  | nil => rfl
  | cons k r ih => rw [List.foldl_cons, cleanupStep_of_fresh _ _ _ _ (h k), ih]

/-- A pass over a table that already matches the snapshot changes neither the
map, nor the history of map calls, nor the keys of the table. -/
theorem reconcile_quiet_of_settled (s : Snapshot) (b : App)
    (h1 : ∀ t ∈ s.taxis, b.tracks (taxiKey t.id) = true)
    (h2 : ∀ t ∈ s.taxis, t.status = "ON_RIDE".toList → b.tracks (destKey t.id) = true)
    (h3 : ∀ t ∈ s.taxis, t.status ≠ "ON_RIDE".toList → t.status ≠ "PICKING_UP".toList →
      b.tracks (destKey t.id) = false)
    (h4 : ∀ p ∈ s.passengers, p.status ≠ "IN_RIDE".toList → b.tracks (passKey p.id) = true)
    (h5 : ∀ k, b.tracks k = true →
      ¬ ((startsWith k "t-".toList = true ∧ ¬ ∃ t ∈ s.taxis, k = taxiKey t.id) ∨
      (startsWith k "p-".toList = true ∧
        ¬ ∃ p ∈ s.passengers, p.status ≠ "IN_RIDE".toList ∧ k = passKey p.id) ∨
      (startsWith k "d-".toList = true ∧
        ¬ ∃ t ∈ s.taxis, replace k "d-".toList "t-".toList = taxiKey t.id))) :
    Quiet b (reconcile s b) := by
  have q1 := taxiLoop_quiet s.taxis (b, []) h1 h2 h3
  have q2 := passengerLoop_quiet s.passengers ((s.taxis.foldl taxiStep (b, [])).1, [])
    (fun p hp e => (quiet_tracks q1 _).trans (h4 p hp e))
  have q := quiet_trans q1 q2
  unfold reconcile
  simp only
  rw [cleanupLoop_of_fresh]
  · exact q
  · intro k hk
    rw [quiet_tracks q] at hk
    have := h5 k hk
    rw [← stale_iff s b k] at this
    simpa using this

/-! ### `resetSim` -/

theorem resetStep_markers (a : App) (id : JsString) : (resetStep a id).markers = a.markers := by
  unfold resetStep
  split <;> rfl

theorem resetStep_layers (a : App) (id : JsString) :
    (resetStep a id).layers =
      match a.markers.get id with
      | none => a.layers
      | some m => removeLayer m.ref a.layers := by
  unfold resetStep
  cases h : a.markers.get id with
  | none => rfl
  | some m => exact layers_removeLayer a (removeLayer m.ref) rfl _ rfl

theorem resetStep_layers_subset (a : App) (id : JsString) (r : Nat)
    (h : r ∈ (resetStep a id).layers) : r ∈ a.layers := by
  rw [resetStep_layers] at h
  cases h' : a.markers.get id with
  | none => rw [h'] at h; exact h
  | some m =>
    rw [h'] at h
    exact (List.mem_filter.1 h).1

theorem resetLoop_markers (ks : List JsString) (a : App) :
    (ks.foldl resetStep a).markers = a.markers := by
  induction ks generalizing a with
  | nil => rfl
  | cons k r ih => rw [List.foldl_cons, ih, resetStep_markers]

theorem resetLoop_layers_subset (ks : List JsString) (a : App) (r : Nat)
    (h : r ∈ (ks.foldl resetStep a).layers) : r ∈ a.layers := by
  induction ks generalizing a with
  | nil => exact h
  | cons k t ih =>
    rw [List.foldl_cons] at h
    exact resetStep_layers_subset a k r (ih _ h)

theorem resetLoop_removed (ks : List JsString) (a : App) (k : JsString) (m : Marker)
    (hk : k ∈ ks) (hm : a.markers.get k = some m) : m.ref ∉ (ks.foldl resetStep a).layers := by
  induction ks generalizing a with
  | nil => simp at hk
  | cons k1 t ih =>
    rw [List.foldl_cons]
    rcases List.mem_cons.1 hk with e | e
    · subst e
      intro h
      have := resetLoop_layers_subset t _ _ h
      rw [resetStep_layers, hm] at this
      simp [removeLayer] at this
    · exact ih (resetStep a k1) e (by rw [resetStep_markers]; exact hm)

theorem resetStep_isSome (a : App) (id : JsString) :
    (resetStep a id).map.isSome = a.map.isSome := by
  unfold resetStep
  split
  · rfl
  · simp

theorem resetLoop_isSome (ks : List JsString) (a : App) :
    (ks.foldl resetStep a).map.isSome = a.map.isSome := by
  induction ks generalizing a with
  | nil => rfl
  | cons k r ih => rw [List.foldl_cons, ih, resetStep_isSome]

theorem resetSim_resolved (a : App) (ok : Bool) (body : Body)
    (h : a.map.isSome = true ∨ a.markers = []) :
    resetSim (FetchOutcome.response ok body) a =
      ⟨{ a.markers.keys.foldl resetStep a with
          markers := []
          startDisabled := (a.markers.keys.foldl resetStep a).startDisabled.map (fun _ => false) },
        none⟩ := by
  unfold resetSim
  cases hm : a.map with
  | none =>
    cases ht : a.markers with
    | nil => rfl
    | cons e r =>
      rcases h with h | h
      · rw [hm] at h; cases h
      · rw [ht] at h; cases h
  | some l => rfl

theorem resetSim_layers_removed (a : App) (ok : Bool) (body : Body)
    (h : a.map.isSome = true ∨ a.markers = []) (k : JsString) (m : Marker)
    (hk : a.markers.get k = some m) :
    m.ref ∉ (resetSim (FetchOutcome.response ok body) a).state.layers := by
  rw [resetSim_resolved a ok body h]
  have hk' : k ∈ a.markers.keys := by
    rw [Table.mem_keys_iff, hk]; rfl
  exact resetLoop_removed a.markers.keys a k m hk' hk

theorem resetSim_consistent (o : FetchOutcome) (a : App) (hc : Consistent a) :
    Consistent (resetSim o a).state := by
  cases o with
  | rejected => exact hc
  | response ok body =>
    by_cases h : a.map.isSome = true ∨ a.markers = []
    · have hl := resetSim_layers_removed a ok body h
      have hsub : ∀ r, r ∈ (resetSim (FetchOutcome.response ok body) a).state.layers →
          r ∈ a.layers := by
        rw [resetSim_resolved a ok body h]
        exact fun r hr => resetLoop_layers_subset a.markers.keys a r hr
      have hmk : (resetSim (FetchOutcome.response ok body) a).state.markers = [] := by
        rw [resetSim_resolved a ok body h]
      constructor
      · intro r
        rw [hmk]
        constructor
        · intro hr
          obtain ⟨k, m, h1, h2⟩ := (hc.1 r).1 (hsub r hr)
          exact absurd (h2 ▸ hr) (hl k m h1)
        · rintro ⟨k, m, h1, -⟩
          simp [Table.get] at h1
      · intro k1 k2 m1 m2 h1
        rw [hmk] at h1
        simp [Table.get] at h1
    · have : resetSim (FetchOutcome.response ok body) a = ⟨a, some JsError.typeError⟩ := by
        unfold resetSim
        cases hm : a.map with
        | none =>
          cases ht : a.markers with
          | nil => exact absurd (Or.inr ht) h
          | cons e r => rfl
        | some l => exact absurd (Or.inl (by simp [hm])) h
      rw [this]
      exact hc

/-! ### `updateMapMarkers` as a whole -/

theorem updateMapMarkers_of_map (a : App) (s : Snapshot) (hm : a.map.isSome = true)
    (hs : a.simulationState = some s) :
    updateMapMarkers a =
      ⟨reconcile s { a with calls := a.calls ++ [Call.updateMapMarkers] }, none⟩ := by
  obtain ⟨l, hl⟩ := Option.isSome_iff_exists.1 hm
  exact updateMapMarkers_eq a l s hl hs

theorem updateMapMarkers_of_noMap (a : App) (hm : a.map = none) :
    updateMapMarkers a = ⟨{ a with calls := a.calls ++ [Call.updateMapMarkers] }, none⟩ := by
  unfold updateMapMarkers
  simp only [hm]

theorem updateMapMarkers_of_null (a : App) (l : List Nat) (hm : a.map = some l)
    (hs : a.simulationState = none) :
    updateMapMarkers a =
      ⟨{ a with calls := a.calls ++ [Call.updateMapMarkers] }, some JsError.typeError⟩ := by
  unfold updateMapMarkers
  simp only [hm, hs]

theorem updateMapMarkers_consistent (a : App) (hc : Consistent a) :
    Consistent (updateMapMarkers a).state := by
  have hc0 : Consistent { a with calls := a.calls ++ [Call.updateMapMarkers] } :=
    Consistent.congr rfl rfl hc
  cases hm : a.map with
  | none =>
    rw [updateMapMarkers_of_noMap a hm]
    exact hc0
  | some l =>
    cases hs : a.simulationState with
    | none =>
      rw [updateMapMarkers_of_null a l hm hs]
      exact hc0
    | some s =>
      rw [updateMapMarkers_eq a l s hm hs]
      exact (reconcile_keeps s _).2 (by simp [hm]) hc0

/-! ### `updateUI` and `fetchState` -/

theorem sameMap_refl (a : App) : SameMap a a := ⟨rfl, rfl, rfl, rfl, rfl⟩

theorem sameMap_trans {a b c : App} (h1 : SameMap a b) (h2 : SameMap b c) : SameMap a c :=
  ⟨h2.1.trans h1.1, h2.2.1.trans h1.2.1, h2.2.2.1.trans h1.2.2.1,
    h2.2.2.2.1.trans h1.2.2.2.1, h2.2.2.2.2.trans h1.2.2.2.2⟩

theorem loop_sameMap {ι : Type} (f : App → ι → App) (hf : ∀ a x, SameMap a (f a x))
    (l : List ι) (a : App) : SameMap a (l.foldl f a) := by
  induction l generalizing a with
  | nil => exact sameMap_refl a
  | cons x r ih => exact sameMap_trans (hf a x) (ih (f a x))

theorem driverPhoneStep_sameMap (a : App) (taxi : Taxi) :
    SameMap a (driverPhoneStep a taxi) := by
  unfold driverPhoneStep
  simp only
  split <;> exact ⟨rfl, rfl, rfl, rfl, rfl⟩

theorem passengerPhoneStep_sameMap (a : App) (p : Passenger) :
    SameMap a (passengerPhoneStep a p) := by
  unfold passengerPhoneStep
  simp only
  split <;> exact ⟨rfl, rfl, rfl, rfl, rfl⟩

theorem updateDriverPhones_sameMap (s : Snapshot) (a : App) :
    SameMap a (updateDriverPhones s a) := by
  unfold updateDriverPhones
  simp only
  exact sameMap_trans ⟨rfl, rfl, rfl, rfl, rfl⟩ (loop_sameMap _ driverPhoneStep_sameMap _ _)

theorem updatePassengerPhones_sameMap (s : Snapshot) (a : App) :
    SameMap a (updatePassengerPhones s a) := by
  unfold updatePassengerPhones
  simp only
  exact sameMap_trans ⟨rfl, rfl, rfl, rfl, rfl⟩ (loop_sameMap _ passengerPhoneStep_sameMap _ _)

theorem updateUI_of_null (a : App) (hs : a.simulationState = none) :
    updateUI a = { a with calls := a.calls ++ [Call.updateUI] } := by
  unfold updateUI
  simp only [hs]

theorem updateUI_of_snapshot (a : App) (s : Snapshot) (hs : a.simulationState = some s) :
    updateUI a =
      updatePassengerPhones s (updateDriverPhones s
        { a with
          calls := a.calls ++ [Call.updateUI]
          passengerCount := numberToString s.passengers.length
          taxiCount := numberToString s.taxis.length
          totalServed := numberToString s.totalPassengersServed
          queueSize := numberToString s.queueSize }) := by
  unfold updateUI
  simp only [hs]

theorem updateUI_fields (a : App) :
    (updateUI a).map = a.map ∧ (updateUI a).markers = a.markers ∧
      (updateUI a).mapOps = a.mapOps ∧ (updateUI a).simulationState = a.simulationState ∧
      (updateUI a).calls = a.calls ++ [Call.updateUI] := by
  cases hs : a.simulationState with
  | none =>
    rw [updateUI_of_null a hs]
    exact ⟨rfl, rfl, rfl, hs, rfl⟩
  | some s =>
    rw [updateUI_of_snapshot a s hs]
    obtain ⟨h1, h2, h3, h4, h5⟩ := sameMap_trans (updateDriverPhones_sameMap s _)
      (updatePassengerPhones_sameMap s (updateDriverPhones s
        { a with
          calls := a.calls ++ [Call.updateUI]
          passengerCount := numberToString s.passengers.length
          taxiCount := numberToString s.taxis.length
          totalServed := numberToString s.totalPassengersServed
          queueSize := numberToString s.queueSize }))
    exact ⟨h1, h2, h3, h4.trans hs, h5⟩

theorem updateMapMarkers_after_snapshot (b : App) (s : Snapshot)
    (hs : b.simulationState = some s) :
    (updateMapMarkers b).thrown = none ∧
      (updateMapMarkers b).state.simulationState = some s ∧
      (updateMapMarkers b).state.calls = b.calls ++ [Call.updateMapMarkers] := by
  cases hm : b.map with
  | none =>
    rw [updateMapMarkers_of_noMap b hm]
    exact ⟨rfl, hs, rfl⟩
  | some l =>
    rw [updateMapMarkers_eq b l s hm hs]
    have h := (reconcile_keeps s { b with calls := b.calls ++ [Call.updateMapMarkers] }).1
    exact ⟨rfl, h.1.trans hs, h.2.1⟩

theorem fetchState_success (a : App) (s : Snapshot) :
    fetchState (FetchOutcome.response true (Body.json s)) a =
      updateMapMarkers (updateUI { a with simulationState := some s }) := by
  have h := updateMapMarkers_after_snapshot (updateUI { a with simulationState := some s }) s
    (updateUI_fields _).2.2.2.1
  unfold fetchState
  simp only [if_true]
  rw [h.1]

/-! ## Main results -/

/-- Claim C1. with the map initialised, after one call of `updateMapMarkers` the
tracked keys that start with `t-` are exactly the keys `'t-' + id` of the
snapshot's taxis, the tracked keys that start with `p-` are exactly the keys
`'p-' + id` of the snapshot's passengers whose status is not `IN_RIDE`, and,
the passenger ids being pairwise distinct, a passenger with status `IN_RIDE`
has no marker. This holds for every prior table and does not need the taxi
ids to be distinct. -/
theorem updateMapMarkers_tracked_keys (a : App) (s : Snapshot)
    (hm : a.map.isSome = true) (hs : a.simulationState = some s)
    (hp : (s.passengers.map Passenger.id).Nodup) :
    (updateMapMarkers a).thrown = none ∧
    (∀ k, (startsWith k "t-".toList = true ∧ (updateMapMarkers a).state.tracks k = true) ↔
      ∃ t ∈ s.taxis, k = taxiKey t.id) ∧
    (∀ k, (startsWith k "p-".toList = true ∧ (updateMapMarkers a).state.tracks k = true) ↔
      ∃ p ∈ s.passengers, p.status ≠ "IN_RIDE".toList ∧ k = passKey p.id) ∧
    (∀ p ∈ s.passengers, p.status = "IN_RIDE".toList →
      (updateMapMarkers a).state.tracks (passKey p.id) = false) := by
  rw [updateMapMarkers_of_map a s hm hs]
  exact ⟨rfl, reconcile_taxi_keys s _, reconcile_passenger_keys s _,
    fun p hp1 hp2 => reconcile_inRide s _ hp p hp1 hp2⟩

theorem updateMapMarkers_tracked_keys_witness :
    staleApp.map.isSome = true ∧
    ((sampleSnapshot [sampleTaxi 1 "ON_RIDE".toList, sampleTaxi 2 "AVAILABLE".toList]
      [samplePassenger 3 "REQUESTING".toList, samplePassenger 4 "IN_RIDE".toList]).passengers.map
        Passenger.id).Nodup ∧
    (∀ k, (startsWith k "t-".toList = true ∧ (updateMapMarkers staleApp).state.tracks k = true) ↔
      ∃ t ∈ [sampleTaxi 1 "ON_RIDE".toList, sampleTaxi 2 "AVAILABLE".toList],
        k = taxiKey t.id) ∧
    (updateMapMarkers staleApp).state.tracks (passKey 4) = false :=
  ⟨by decide, by decide,
    (updateMapMarkers_tracked_keys staleApp _ (by decide) rfl (by decide)).2.1,
    (updateMapMarkers_tracked_keys staleApp _ (by decide) rfl (by decide)).2.2.2
      (samplePassenger 4 "IN_RIDE".toList) (by simp [sampleSnapshot]) rfl⟩

/-- Claim C4. with the map initialised and pairwise distinct taxi ids, after one
call of `updateMapMarkers` every taxi of the snapshot with status `ON_RIDE`
has exactly one marker under `'d-' + id`, placed at
`mapToLatLon(targetX, targetY)`, and a taxi whose status is neither `ON_RIDE`
nor `PICKING_UP` (an `AVAILABLE` taxi) has none, whatever the prior table
held. -/
theorem updateMapMarkers_destination (a : App) (s : Snapshot)
    (hm : a.map.isSome = true) (hs : a.simulationState = some s)
    (ht : (s.taxis.map Taxi.id).Nodup) :
    (∀ t ∈ s.taxis, t.status = "ON_RIDE".toList →
      ∃! m, (updateMapMarkers a).state.markers.get (destKey t.id) = some m ∧
        m.latlng = mapToLatLon t.targetX t.targetY) ∧
    (∀ t ∈ s.taxis, t.status ≠ "ON_RIDE".toList → t.status ≠ "PICKING_UP".toList →
      (updateMapMarkers a).state.markers.get (destKey t.id) = none) := by
  rw [updateMapMarkers_of_map a s hm hs]
  constructor
  · intro t htm hst
    obtain ⟨st0, -, h1⟩ := reconcile_get_destKey s
      { a with calls := a.calls ++ [Call.updateMapMarkers] } ht t htm
    obtain ⟨m, h2, h3⟩ := taxiStep_dest_onRide st0 t hst
    refine ⟨m, ⟨h1.trans h2, h3⟩, ?_⟩
    rintro m' ⟨h4, -⟩
    have : some m' = some m := h4.symm.trans (h1.trans h2)
    exact Option.some.inj this
  · intro t htm h1 h2
    obtain ⟨st0, -, h3⟩ := reconcile_get_destKey s
      { a with calls := a.calls ++ [Call.updateMapMarkers] } ht t htm
    exact h3.trans (taxiStep_dest_idle st0 t h1 h2)

/-- Claim C3. with the map initialised and pairwise distinct taxi ids, a second
call of `updateMapMarkers` on the same snapshot makes no Leaflet call that
adds or removes a layer, and leaves the layers of the map and the keys of the
table as the first call left them. -/
theorem updateMapMarkers_idempotent (a : App) (s : Snapshot)
    (hm : a.map.isSome = true) (hs : a.simulationState = some s)
    (ht : (s.taxis.map Taxi.id).Nodup) :
    (updateMapMarkers a).thrown = none ∧
    (updateMapMarkers (updateMapMarkers a).state).thrown = none ∧
    (updateMapMarkers (updateMapMarkers a).state).state.mapOps =
      (updateMapMarkers a).state.mapOps ∧
    (updateMapMarkers (updateMapMarkers a).state).state.layers =
      (updateMapMarkers a).state.layers ∧
    (updateMapMarkers (updateMapMarkers a).state).state.markers.keys =
      (updateMapMarkers a).state.markers.keys := by
  rw [updateMapMarkers_of_map a s hm hs]
  have hk := reconcile_keeps s { a with calls := a.calls ++ [Call.updateMapMarkers] }
  have hm1 : (reconcile s { a with calls := a.calls ++ [Call.updateMapMarkers] }).map.isSome
      = true := hk.1.2.2.trans hm
  have hs1 : (reconcile s
      { a with calls := a.calls ++ [Call.updateMapMarkers] }).simulationState = some s :=
    hk.1.1.trans hs
  simp only
  rw [updateMapMarkers_of_map _ s hm1 hs1]
  have q0 : Quiet (reconcile s { a with calls := a.calls ++ [Call.updateMapMarkers] })
      { reconcile s { a with calls := a.calls ++ [Call.updateMapMarkers] } with
        calls := (reconcile s { a with calls := a.calls ++ [Call.updateMapMarkers] }).calls ++
          [Call.updateMapMarkers] } := ⟨rfl, rfl, rfl⟩
  have q1 : Quiet
      { reconcile s { a with calls := a.calls ++ [Call.updateMapMarkers] } with
        calls := (reconcile s { a with calls := a.calls ++ [Call.updateMapMarkers] }).calls ++
          [Call.updateMapMarkers] }
      (reconcile s
        { reconcile s { a with calls := a.calls ++ [Call.updateMapMarkers] } with
          calls := (reconcile s { a with calls := a.calls ++ [Call.updateMapMarkers] }).calls ++
            [Call.updateMapMarkers] }) := by
    apply reconcile_quiet_of_settled
    · intro t htm
      exact reconcile_tracks_taxiKey s _ t htm
    · intro t htm hst
      obtain ⟨st0, -, h1⟩ := reconcile_get_destKey s
        { a with calls := a.calls ++ [Call.updateMapMarkers] } ht t htm
      obtain ⟨m, h2, -⟩ := taxiStep_dest_onRide st0 t hst
      show (Table.get _ _).isSome = true
      rw [h1.trans h2]
      rfl
    · intro t htm hst1 hst2
      obtain ⟨st0, -, h1⟩ := reconcile_get_destKey s
        { a with calls := a.calls ++ [Call.updateMapMarkers] } ht t htm
      show (Table.get _ _).isSome = false
      rw [h1.trans (taxiStep_dest_idle st0 t hst1 hst2)]
      rfl
    · intro p hp hst
      exact reconcile_tracks_passKey s _ p hp hst
    · intro k hk
      exact ((reconcile_tracks s _ k).1 hk).2
  have q := quiet_trans q0 q1
  refine ⟨trivial, rfl, q.2.1, ?_, q.2.2⟩
  unfold App.layers
  rw [q.1]

theorem updateMapMarkers_idempotent_witness :
    staleApp.map.isSome = true ∧
    (updateMapMarkers (updateMapMarkers staleApp).state).state.mapOps =
      (updateMapMarkers staleApp).state.mapOps ∧
    (updateMapMarkers (updateMapMarkers staleApp).state).state.markers.keys =
      (updateMapMarkers staleApp).state.markers.keys :=
  ⟨by decide,
    (updateMapMarkers_idempotent staleApp _ (by decide) rfl (by decide)).2.2.1,
    (updateMapMarkers_idempotent staleApp _ (by decide) rfl (by decide)).2.2.2.2⟩

/-- Claim C10. if the layers on the map are the marker objects of the table, one
object per key, then the same holds after `updateMapMarkers`, whatever the
snapshot and whether or not the map is initialised, and after `resetSim`,
however its request ends. -/
theorem table_and_map_agree (a : App) (hc : Consistent a) :
    Consistent (updateMapMarkers a).state ∧ ∀ o, Consistent (resetSim o a).state :=
  ⟨updateMapMarkers_consistent a hc, fun o => resetSim_consistent o a hc⟩

theorem updateMapMarkers_destination_witness :
    rideApp.map.isSome = true ∧
    rideApp.tracks (destKey 1) = false ∧
    (∃! m, (updateMapMarkers rideApp).state.markers.get (destKey 1) = some m ∧
      m.latlng = mapToLatLon 600 400) ∧
    afterRideApp.tracks (destKey 1) = true ∧
    (updateMapMarkers afterRideApp).state.markers.get (destKey 1) = none :=
  ⟨by decide, by decide,
    (updateMapMarkers_destination rideApp
      (sampleSnapshot [sampleTaxi 1 "ON_RIDE".toList] []) (by decide) rfl (by decide)).1
      (sampleTaxi 1 "ON_RIDE".toList) (List.mem_singleton.2 rfl) rfl,
    by decide,
    (updateMapMarkers_destination afterRideApp
      (sampleSnapshot [sampleTaxi 1 "AVAILABLE".toList] []) (by decide) rfl (by decide)).2
      (sampleTaxi 1 "AVAILABLE".toList) (List.mem_singleton.2 rfl) (by decide) (by decide)⟩

theorem table_and_map_agree_witness :
    Consistent bootApp ∧ Consistent (updateMapMarkers rideApp).state ∧
      Consistent (resetSim FetchOutcome.rejected (updateMapMarkers rideApp).state).state :=
  have h0 : Consistent bootApp :=
    ⟨fun r => by simp [App.layers, bootApp, Table.get],
      fun k1 k2 m1 m2 h1 => by simp [bootApp, Table.get] at h1⟩
  have h1 : Consistent { bootApp with
      simulationState := some (sampleSnapshot [sampleTaxi 1 "AVAILABLE".toList] []) } :=
    Consistent.congr rfl rfl h0
  have h2 : Consistent rideApp := Consistent.congr rfl rfl (table_and_map_agree _ h1).1
  ⟨h0, (table_and_map_agree rideApp h2).1,
    (table_and_map_agree _ (table_and_map_agree rideApp h2).1).2 FetchOutcome.rejected⟩

/-- Claim C2, evaluated: taxi 1 is `ON_RIDE` at one poll and `PICKING_UP` at the
next. The second pass finds the marker `d-1`, moves it and keeps it: the key
is still tracked and its layer is still on the map, although the taxi is not
`ON_RIDE`. -/
theorem destination_marker_survives_pickup :
    (poll (sampleSnapshot [sampleTaxi 1 "ON_RIDE".toList] []) bootApp).markers.keys =
      [taxiKey 1, destKey 1] ∧
    (poll (sampleSnapshot [sampleTaxi 1 "PICKING_UP".toList] [])
      (poll (sampleSnapshot [sampleTaxi 1 "ON_RIDE".toList] []) bootApp)).tracks (destKey 1)
        = true ∧
    (poll (sampleSnapshot [sampleTaxi 1 "PICKING_UP".toList] [])
      (poll (sampleSnapshot [sampleTaxi 1 "ON_RIDE".toList] []) bootApp)).layers = [1, 2] ∧
    (poll (sampleSnapshot [sampleTaxi 1 "PICKING_UP".toList] []) bootApp).tracks (destKey 1)
        = false := by
  decide

/-- Claim C8 as stated fails: when the request to `/api/reset` rejects, `resetSim`
throws at its `await`, and the three tracked markers stay in the table and on
the map. -/
theorem resetSim_rejected_keeps_markers :
    (resetSim FetchOutcome.rejected staleApp).thrown = some JsError.networkError ∧
    (resetSim FetchOutcome.rejected staleApp).state.markers.keys =
      [taxiKey 9, passKey 4, destKey 9] ∧
    (resetSim FetchOutcome.rejected staleApp).state.layers = [5, 6, 7] := by
  decide

/-- Claim C8, amended: with the map initialised, when the request to `/api/reset`
resolves (whatever its status and body), `resetSim` returns, the table ends
up empty and no marker that was tracked is on the map any more, whatever the
prior table and snapshot were; when the request rejects, `resetSim` throws
and the state is the prior one. -/
theorem resetSim_clears (a : App) (ok : Bool) (body : Body) (hm : a.map.isSome = true) :
    (resetSim (FetchOutcome.response ok body) a).thrown = none ∧
    (resetSim (FetchOutcome.response ok body) a).state.markers = [] ∧
    (∀ k m, a.markers.get k = some m →
      m.ref ∉ (resetSim (FetchOutcome.response ok body) a).state.layers) ∧
    (resetSim FetchOutcome.rejected a).thrown = some JsError.networkError ∧
    (resetSim FetchOutcome.rejected a).state = a := by
  refine ⟨?_, ?_, fun k m h => resetSim_layers_removed a ok body (Or.inl hm) k m h, rfl, rfl⟩
  · rw [resetSim_resolved a ok body (Or.inl hm)]
  · rw [resetSim_resolved a ok body (Or.inl hm)]

theorem resetSim_clears_witness :
    staleApp.map.isSome = true ∧
    (resetSim (FetchOutcome.response true Body.malformed) staleApp).state.markers = [] ∧
    (sampleMarker 5).ref ∉
      (resetSim (FetchOutcome.response true Body.malformed) staleApp).state.layers :=
  ⟨by decide,
    (resetSim_clears staleApp true Body.malformed (by decide)).2.1,
    (resetSim_clears staleApp true Body.malformed (by decide)).2.2.1 (taxiKey 9)
      (sampleMarker 5) rfl⟩

/-- Claim C7. a poll whose request rejects, answers with a non-OK status, or whose
body does not parse returns normally and leaves the snapshot, the table, the
map and the panels as they were, entering neither `updateUI` nor
`updateMapMarkers`; a poll that succeeds returns normally, stores the new
snapshot and runs `updateUI`, then `updateMapMarkers`. -/
theorem fetchState_outcomes (a : App) :
    NothingRendered a (fetchState FetchOutcome.rejected a) ∧
    (∀ body, NothingRendered a (fetchState (FetchOutcome.response false body) a)) ∧
    NothingRendered a (fetchState (FetchOutcome.response true Body.malformed) a) ∧
    (∀ s,
      (fetchState (FetchOutcome.response true (Body.json s)) a).thrown = none ∧
      (fetchState (FetchOutcome.response true (Body.json s)) a).state.simulationState = some s ∧
      (fetchState (FetchOutcome.response true (Body.json s)) a).state.calls =
        a.calls ++ [Call.updateUI, Call.updateMapMarkers] ∧
      (fetchState (FetchOutcome.response true (Body.json s)) a).state =
        (updateMapMarkers (updateUI { a with simulationState := some s })).state) := by
  refine ⟨⟨rfl, rfl, rfl, rfl, rfl, rfl, rfl, rfl, rfl⟩,
    fun body => ⟨rfl, rfl, rfl, rfl, rfl, rfl, rfl, rfl, rfl⟩,
    ⟨rfl, rfl, rfl, rfl, rfl, rfl, rfl, rfl, rfl⟩, fun s => ?_⟩
  rw [fetchState_success]
  have hu := updateUI_fields { a with simulationState := some s }
  have h := updateMapMarkers_after_snapshot (updateUI { a with simulationState := some s }) s
    hu.2.2.2.1
  refine ⟨h.1, h.2.1, ?_, rfl⟩
  rw [h.2.2, hu.2.2.2.2]
  simp

/-! ### Passenger panels -/

theorem existingIds_numbers {ι : Type} (f : ι → Int) (l : List ι) (ids : List JsValue)
    (h : ∀ v ∈ ids, ∃ n, v = JsValue.number n) :
    ∀ v ∈ l.foldl (fun ids p => setAdd ids (JsValue.number (f p))) ids,
      ∃ n, v = JsValue.number n := by
  induction l generalizing ids with
  | nil => exact h
  | cons p r ih =>
    rw [List.foldl_cons]
    apply ih
    intro v hv
    rcases (mem_setAdd ids _ v).1 hv with h1 | h1
    · exact h v h1
    · exact ⟨f p, h1⟩

theorem passengerPhoneLoop_domOps (ps : List Passenger) (a : App) :
    ∃ rest, (ps.foldl passengerPhoneStep a).domOps = a.domOps ++ rest := by
  induction ps generalizing a with
  | nil => exact ⟨[], by simp⟩
  | cons p r ih =>
    rw [List.foldl_cons]
    obtain ⟨rest, h⟩ := ih (passengerPhoneStep a p)
    have h1 : ∃ r1, (passengerPhoneStep a p).domOps = a.domOps ++ r1 := by
      unfold passengerPhoneStep
      simp only
      split
      · exact ⟨[], by simp⟩
      · exact ⟨_, rfl⟩
    obtain ⟨r1, h2⟩ := h1
    exact ⟨r1 ++ rest, by rw [h, h2, List.append_assoc]⟩

/-- Claim C6, evaluated: `updatePassengerPhones` asks a set of numbers for a
string, so its cleanup removes every panel of the container, also the panel
of a passenger who is in the snapshot; that panel is then built anew. With
one panel for passenger 1 and passenger 1 in the snapshot the DOM calls are a
removal and an append, where `updateDriverPhones`, which parses the
`dataset.id`, makes none for taxi 1. -/
theorem updatePassengerPhones_removes_every_panel :
    (∀ (s : Snapshot) (a : App), ∃ rest,
      (updatePassengerPhones s a).domOps =
        a.domOps ++ a.passengerPhones.map (fun c => DomOp.removePassengerPhone c.dataId)
          ++ rest) ∧
    (updatePassengerPhones
      (sampleSnapshot [sampleTaxi 1 "AVAILABLE".toList] [samplePassenger 1 "REQUESTING".toList])
      panelApp).domOps =
        [DomOp.removePassengerPhone (numberToString 1),
          DomOp.appendPassengerPhone (numberToString 1)] ∧
    (updateDriverPhones
      (sampleSnapshot [sampleTaxi 1 "AVAILABLE".toList] [samplePassenger 1 "REQUESTING".toList])
      panelApp).domOps = [] := by
  refine ⟨fun s a => ?_, by decide, by decide⟩
  have hkeep : ∀ c : PassengerPhone,
      setHas (s.passengers.foldl (fun ids p => setAdd ids (JsValue.number p.id)) [])
        (JsValue.string c.dataId) = false := by
    intro c
    unfold setHas
    rw [decide_eq_false_iff_not]
    intro hmem
    obtain ⟨n, hn⟩ := existingIds_numbers Passenger.id s.passengers [] (by simp) _ hmem
    cases hn
  unfold updatePassengerPhones
  simp only [hkeep, Bool.not_false, List.filter_true]
  exact passengerPhoneLoop_domOps _ _

/-! ### The coordinate mapper -/

/-- Claim C5, evaluated: `mapToLatLon` divides `x` by 1200, not by the width 1000
of the grid that its comment names, so the corner (1000, 800) gets the
longitude 109609/1500 (73.0727 to four places) where the comment and the
claim have 73.0800; the latitude is the 33.6840 of the claim, and 73.0800 is
the longitude of `x = 1200`. -/
theorem mapToLatLon_southEast :
    mapToLatLon 1000 800 = (33.6840, 109609 / 1500) ∧
    mapToLatLon 1000 800 ≠ (33.6840, 73.0800) ∧
    mapToLatLon 1200 800 = (33.6840, 73.0800) := by
  refine ⟨?_, ?_, ?_⟩
  · simp only [mapToLatLon, Prod.mk.injEq]
    constructor <;> norm_num
  · simp only [mapToLatLon, ne_eq, Prod.mk.injEq, not_and]
    intro _
    norm_num
  · simp only [mapToLatLon, Prod.mk.injEq]
    constructor <;> norm_num

/-- Claim C9. `mapToLatLon` is affine on all of ℚ × ℚ, inside the grid and
outside: it commutes with interpolation and extrapolation along any line,
componentwise; the latitude depends on `y` alone and strictly decreases in
`y`, the longitude depends on `x` alone and strictly increases in `x`. -/
theorem mapToLatLon_affine :
    (∀ x1 y1 x2 y2 t : ℚ,
      (mapToLatLon (x1 + t * (x2 - x1)) (y1 + t * (y2 - y1))).1 =
        (mapToLatLon x1 y1).1 + t * ((mapToLatLon x2 y2).1 - (mapToLatLon x1 y1).1) ∧
      (mapToLatLon (x1 + t * (x2 - x1)) (y1 + t * (y2 - y1))).2 =
        (mapToLatLon x1 y1).2 + t * ((mapToLatLon x2 y2).2 - (mapToLatLon x1 y1).2)) ∧
    (∀ x x' y : ℚ, (mapToLatLon x y).1 = (mapToLatLon x' y).1) ∧
    (∀ x y y' : ℚ, y < y' → (mapToLatLon x y').1 < (mapToLatLon x y).1) ∧
    (∀ x y y' : ℚ, (mapToLatLon x y).2 = (mapToLatLon x y').2) ∧
    (∀ x x' y : ℚ, x < x' → (mapToLatLon x y).2 < (mapToLatLon x' y).2) := by
  refine ⟨fun x1 y1 x2 y2 t => ⟨?_, ?_⟩, fun x x' y => rfl, fun x y y' h => ?_,
    fun x y y' => rfl, fun x x' y h => ?_⟩
  · simp only [mapToLatLon]; ring
  · simp only [mapToLatLon]; ring
  · simp only [mapToLatLon]
    norm_num
    linarith
  · simp only [mapToLatLon]
    norm_num
    linarith

theorem mapToLatLon_affine_witness :
    (mapToLatLon (0 + 2 * (1000 - 0)) (0 + 2 * (800 - 0))).2 =
      (mapToLatLon 0 0).2 + 2 * ((mapToLatLon 1000 800).2 - (mapToLatLon 0 0).2) ∧
    (mapToLatLon 0 800).1 < (mapToLatLon 0 0).1 ∧
    (mapToLatLon 0 0).2 < (mapToLatLon 1000 0).2 :=
  ⟨(mapToLatLon_affine.1 0 0 1000 800 2).2,
    mapToLatLon_affine.2.2.1 0 0 800 (by norm_num),
    mapToLatLon_affine.2.2.2.2 0 1000 0 (by norm_num)⟩

end TaxiSim
